import Mathlib

/-!
Verification of the config-driven PyTorch inference engine
(src/python/inference/inference.py) against its specification.

The Python code is shallowly embedded: JSON configuration documents become the
inductive type J, pipeline stages become the inductive type Stage, tensors
become rational-valued shape-plus-data records, Python exceptions become the
Err type carried by Except, and the mutable engine object becomes explicit
state passing on the Engine structure.  File reads and the wall clock are
external inputs, so they are passed in as explicit parameters.  Numeric
kernels of the tensor library (softmax, sigmoid, ...) are modeled by rational
functions with the same range and normalization behavior, as noted at each
definition.
-/

set_option maxHeartbeats 1000000

/-- Python exception model: the exception class together with the static part
of its message. -/
inductive Err where
  | keyError (key : String)
  | typeError (msg : String)
  | valueError (msg : String)
  | runtimeError (msg : String)
  | indexError (msg : String)
  | ioError (msg : String)
  | zeroDivisionError
deriving Repr, DecidableEq

/-- JSON-like Python value, as produced by json.load: null, bool, int, float,
string, list and dict. -/
inductive J where
  | null
  | bool (b : Bool)
  | int (n : Int)
  | float (q : ℚ)
  | str (s : String)
  | arr (xs : List J)
  | obj (kvs : List (String × J))
deriving Repr

mutual

def J.decEq : (a b : J) → Decidable (a = b)
  | .null, .null => .isTrue rfl
  | .bool a, .bool b =>
      if h : a = b then .isTrue (by rw [h])
      else .isFalse (fun hh => by cases hh; exact h rfl)
  | .int a, .int b =>
      if h : a = b then .isTrue (by rw [h])
      else .isFalse (fun hh => by cases hh; exact h rfl)
  | .float a, .float b =>
      if h : a = b then .isTrue (by rw [h])
      else .isFalse (fun hh => by cases hh; exact h rfl)
  | .str a, .str b =>
      if h : a = b then .isTrue (by rw [h])
      else .isFalse (fun hh => by cases hh; exact h rfl)
  | .arr xs, .arr ys =>
      match J.decEqList xs ys with
      | .isTrue h => .isTrue (by rw [h])
      | .isFalse h => .isFalse (fun hh => by cases hh; exact h rfl)
  | .obj xs, .obj ys =>
      match J.decEqKV xs ys with
      | .isTrue h => .isTrue (by rw [h])
      | .isFalse h => .isFalse (fun hh => by cases hh; exact h rfl)
  | .null, .bool _ | .null, .int _ | .null, .float _ | .null, .str _ | .null, .arr _ | .null, .obj _
  | .bool _, .null | .bool _, .int _ | .bool _, .float _ | .bool _, .str _ | .bool _, .arr _ | .bool _, .obj _
  | .int _, .null | .int _, .bool _ | .int _, .float _ | .int _, .str _ | .int _, .arr _ | .int _, .obj _
  | .float _, .null | .float _, .bool _ | .float _, .int _ | .float _, .str _ | .float _, .arr _ | .float _, .obj _
  | .str _, .null | .str _, .bool _ | .str _, .int _ | .str _, .float _ | .str _, .arr _ | .str _, .obj _
  | .arr _, .null | .arr _, .bool _ | .arr _, .int _ | .arr _, .float _ | .arr _, .str _ | .arr _, .obj _
  | .obj _, .null | .obj _, .bool _ | .obj _, .int _ | .obj _, .float _ | .obj _, .str _ | .obj _, .arr _ =>
      .isFalse (fun hh => by cases hh)

def J.decEqList : (xs ys : List J) → Decidable (xs = ys)
  | [], [] => .isTrue rfl
  | [], _ :: _ => .isFalse (fun hh => by cases hh)
  | _ :: _, [] => .isFalse (fun hh => by cases hh)
  | x :: xs, y :: ys =>
      match J.decEq x y with
      | .isFalse h => .isFalse (fun hh => by cases hh; exact h rfl)
      | .isTrue h1 =>
          match J.decEqList xs ys with
          | .isTrue h2 => .isTrue (by rw [h1, h2])
          | .isFalse h => .isFalse (fun hh => by cases hh; exact h rfl)

def J.decEqKV : (xs ys : List (String × J)) → Decidable (xs = ys)
  | [], [] => .isTrue rfl
  | [], _ :: _ => .isFalse (fun hh => by cases hh)
  | _ :: _, [] => .isFalse (fun hh => by cases hh)
  | (k1, v1) :: xs, (k2, v2) :: ys =>
      if hk : k1 = k2 then
          match J.decEq v1 v2 with
          | .isFalse h => .isFalse (fun hh => by cases hh; exact h rfl)
          | .isTrue hv =>
              match J.decEqKV xs ys with
              | .isTrue h2 => .isTrue (by rw [hk, hv, h2])
              | .isFalse h => .isFalse (fun hh => by cases hh; exact h rfl)
      else .isFalse (fun hh => by cases hh; exact hk rfl)

end

instance : DecidableEq J := J.decEq

instance {ε α : Type} [DecidableEq ε] [DecidableEq α] : DecidableEq (Except ε α) := fun x y =>
  match x, y with
  | .ok a, .ok b =>
      if h : a = b then .isTrue (by rw [h]) else .isFalse (fun hh => by cases hh; exact h rfl)
  | .error a, .error b =>
      if h : a = b then .isTrue (by rw [h]) else .isFalse (fun hh => by cases hh; exact h rfl)
  | .ok _, .error _ => .isFalse (fun hh => by cases hh)
  | .error _, .ok _ => .isFalse (fun hh => by cases hh)

/-- Python subscript `d[key]` on a JSON value: dict lookup with KeyError on a
missing key, TypeError on non-dict values. -/
def getItem (cfg : J) (k : String) : Except Err J :=
  match cfg with
  | .obj kvs =>
      match kvs.lookup k with
      | some v => .ok v
      | none => .error (.keyError k)
  | _ => .error (.typeError "object is not subscriptable")

/-- Python `key in d`, restricted to dict receivers (every call site first
subscripts the same dict, so the receiver is known to be a dict). -/
def hasKey (cfg : J) (k : String) : Bool :=
  match cfg with
  | .obj kvs => (kvs.lookup k).isSome
  | _ => false

/-- Python `d.get(key, default)` on a dict. -/
def dictGet (cfg : J) (k : String) (dflt : J) : J :=
  match cfg with
  | .obj kvs => (kvs.lookup k).getD dflt
  | _ => dflt

/-- Python truthiness of a JSON value. -/
def pyTruthy : J → Bool
  | .null => false
  | .bool b => b
  | .int n => n ≠ 0
  | .float q => q ≠ 0
  | .str s => s ≠ ""
  | .arr xs => !xs.isEmpty
  | .obj kvs => !kvs.isEmpty

/-- Python int(x) coercion: ints and bools pass through, floats truncate
toward zero, decimal strings parse (int-valued only), anything else is a
TypeError. -/
def asInt : J → Except Err Int
  | .int n => .ok n
  | .bool b => .ok (if b then 1 else 0)
  | .float q => .ok (q.num / (q.den : Int))
  | .str s =>
      match s.toInt? with
      | some n => .ok n
      | none => .error (.valueError "invalid literal for int")
  | _ => .error (.typeError "int argument must be a number or a string")

/-- Python float(x) coercion.  Decimal strings are modeled as unparseable
unless they are integral; no verified property feeds non-integral numeric
strings. -/
def asFloat : J → Except Err ℚ
  | .int n => .ok n
  | .float q => .ok q
  | .bool b => .ok (if b then 1 else 0)
  | .str s =>
      match s.toInt? with
      | some n => .ok n
      | none => .error (.valueError "could not convert string to float")
  | _ => .error (.typeError "float argument must be a string or a number")

/-- Python len(). -/
def pyLen : J → Except Err Nat
  | .str s => .ok s.length
  | .arr xs => .ok xs.length
  | .obj kvs => .ok kvs.length
  | _ => .error (.typeError "object has no len")

/-- Python x[i] for a non-negative int index: list indexing, string indexing
(yielding a one-character string), KeyError for dicts keyed by strings. -/
def pyIdx (j : J) (i : Nat) : Except Err J :=
  match j with
  | .arr xs =>
      match xs.get? i with
      | some v => .ok v
      | none => .error (.indexError "list index out of range")
  | .str s =>
      match s.data.get? i with
      | some c => .ok (.str (String.mk [c]))
      | none => .error (.indexError "string index out of range")
  | .obj _ => .error (.keyError "int key")
  | _ => .error (.typeError "object is not subscriptable")

/-- Python == between a config value and a (non-negative) shape integer,
with the numeric cross-type equalities of Python: bools and floats compare
equal to equal-valued ints. -/
def pyEqNat (j : J) (n : Nat) : Bool :=
  match j with
  | .int m => m = (n : Int)
  | .bool b => (if b then (1 : Int) else 0) = (n : Int)
  | .float q => q = (n : ℚ)
  | _ => false

/-- Python subscript on the engine config slot, which may hold None
(self.config[k] raises a TypeError when self.config is None). -/
def optSubscript (c : Option J) (k : String) : Except Err J :=
  match c with
  | none => .error (.typeError "NoneType object is not subscriptable")
  | some j => getItem j k

/-- Activation variants produced by the activation resolver. -/
inductive Act where
  | relu
  | sigmoid
  | tanh
  | softmax
  | gelu
deriving Repr, DecidableEq

/-- _create_activation: maps an activation name to an activation module;
unknown hashable names yield None, while unhashable values (lists, dicts)
raise a TypeError from the dict lookup. -/
def create_activation : J → Except Err (Option Act)
  | .str "ReLU" => .ok (some .relu)
  | .str "Sigmoid" => .ok (some .sigmoid)
  | .str "Tanh" => .ok (some .tanh)
  | .str "Softmax" => .ok (some .softmax)
  | .str "GELU" => .ok (some .gelu)
  | .arr _ => .error (.typeError "unhashable type list")
  | .obj _ => .error (.typeError "unhashable type dict")
  | _ => .ok none

/-- Conv2D padding argument as torch accepts it at construction. -/
inductive Pad where
  | num (n : Int)
  | pair (a b : Int)
  | same
  | valid
deriving Repr, DecidableEq

structure DenseData where
  inSize : Nat
  outSize : Nat
  weight : List (List ℚ)
  bias : List ℚ
deriving Repr, DecidableEq

structure ConvData where
  inC : Nat
  outC : Nat
  kh : Nat
  kw : Nat
  stride : Int
  pad : Pad
  useBias : Bool
  weight : List ℚ
  bias : List ℚ
deriving Repr, DecidableEq

structure BNData where
  size : Nat
  gamma : List ℚ
  beta : List ℚ
deriving Repr, DecidableEq

/-- One executable pipeline stage.  A Dense stage carries its optional fused
activation (nn.Sequential(linear, activation) in the source).  MaxPool2D
keeps its pool_size value exactly as configured, because torch only validates
it during a forward pass. -/
inductive Stage where
  | dense (d : DenseData) (act : Option Act)
  | conv2d (c : ConvData)
  | maxpool2d (poolSize : J) (stride : Int) (padIsZero : Bool)
  | flatten
  | dropout (rate : ℚ)
  | batchnorm (b : BNData)
deriving Repr, DecidableEq

/-- Zero-initialized dense parameters: a deterministic stand-in for the
random initialization of nn.Linear.  No verified property depends on the
initial parameter values, only on whether they are preserved. -/
def denseInit (i o : Nat) : DenseData :=
  ⟨i, o, List.replicate o (List.replicate i 0), List.replicate o 0⟩

def convInit (ic oc kh kw : Nat) (st : Int) (p : Pad) (ub : Bool) : ConvData :=
  ⟨ic, oc, kh, kw, st, p, ub, List.replicate (oc * ic * kh * kw) 0, List.replicate oc 0⟩

def bnInit (n : Nat) : BNData :=
  ⟨n, List.replicate n 1, List.replicate n 0⟩

/-- The Dense branch of _create_layer: nn.Linear construction plus the
optional fused activation. -/
def denseBranch (params : J) : Except Err Stage := do
  let i ← asInt (← getItem params "input_size")
  let o ← asInt (← getItem params "output_size")
  if i < 0 ∨ o < 0 then
    .error (.runtimeError "Trying to create tensor with negative dimension")
  else
    let base := denseInit i.toNat o.toNat
    if hasKey params "activation" then do
      let actJ ← getItem params "activation"
      let act ← create_activation actJ
      match act with
      | some a => .ok (.dense base (some a))
      | none => .ok (.dense base none)
    else .ok (.dense base none)

/-- The Conv2D branch of _create_layer: parameters are fetched and coerced in
source order, then the nn.Conv2d constructor validations run (kernel and
padding forms, non-negative dimensions, no strided same padding). -/
def convBranch (params : J) : Except Err Stage := do
  let ksJ ← getItem params "kernel_size"
  let ic ← asInt (← getItem params "in_channels")
  let oc ← asInt (← getItem params "out_channels")
  let st ← asInt (← getItem params "stride")
  let padJ ← getItem params "padding"
  let ub := pyTruthy (dictGet params "use_bias" (.bool true))
  let kp ← (match ksJ with
    | .int k => Except.ok (k, k)
    | .arr [.int a, .int b] => Except.ok (a, b)
    | _ => Except.error (.typeError "kernel size must be an int or a pair of ints"))
  if kp.1 < 0 ∨ kp.2 < 0 ∨ ic < 0 ∨ oc < 0 then
    .error (.runtimeError "Trying to create tensor with negative dimension")
  else do
    let pad ← (match padJ with
      | .int n => Except.ok (Pad.num n)
      | .arr [.int a, .int b] => Except.ok (Pad.pair a b)
      | .str "valid" => Except.ok Pad.valid
      | .str "same" =>
          if st ≠ 1 then
            Except.error (.valueError "padding same is not supported for strided convolutions")
          else Except.ok Pad.same
      | _ => Except.error (.typeError "invalid padding argument"))
    .ok (.conv2d (convInit ic.toNat oc.toNat kp.1.toNat kp.2.toNat st pad ub))

/-- The MaxPool2D branch of _create_layer: nn.MaxPool2d stores its arguments
without validating them, so only the parameter fetches and the stride
coercion can fail here. -/
def maxpoolBranch (params : J) : Except Err Stage := do
  let ps ← getItem params "pool_size"
  let st ← asInt (← getItem params "stride")
  let padJ ← getItem params "padding"
  .ok (.maxpool2d ps st (padJ = .str "valid"))

/-- The Dropout branch of _create_layer. -/
def dropoutBranch (params : J) : Except Err Stage := do
  let r ← asFloat (← getItem params "rate")
  if r < 0 ∨ 1 < r then
    .error (.valueError "dropout probability has to be between 0 and 1")
  else .ok (.dropout r)

/-- The BatchNorm branch of _create_layer. -/
def batchnormBranch (params : J) : Except Err Stage := do
  let n ← asInt (← getItem params "size")
  if n < 0 then
    .error (.runtimeError "Trying to create tensor with negative dimension")
  else .ok (.batchnorm (bnInit n.toNat))

/-- The elif chain of _create_layer on the already-fetched type value.  Each
recognized branch builds a stage; every other value (including non-strings,
which compare unequal to every literal) falls through to None. -/
def create_layer_dispatch (layerType params : J) : Except Err (Option Stage) :=
  match layerType with
  | .str s =>
      if s = "Dense" then (denseBranch params).map some
      else if s = "Conv2D" then (convBranch params).map some
      else if s = "MaxPool2D" then (maxpoolBranch params).map some
      else if s = "Flatten" then .ok (some .flatten)
      else if s = "Dropout" then (dropoutBranch params).map some
      else if s = "BatchNorm" then (batchnormBranch params).map some
      else .ok none
  | _ => .ok none

/-- _create_layer translated from the source.  Both config[type] and
config[params] are read before the type dispatch, exactly as in the source,
so a missing params key fails even for unrecognized types. -/
def create_layer (cfg : J) : Except Err (Option Stage) := do
  let layerType ← getItem cfg "type"
  let params ← getItem cfg "params"
  create_layer_dispatch layerType params

/-- The loop body of _build_model_from_config: create the layer and append
it when one was produced (every constructed torch module is truthy, so the
source guard `if layer` is isSome here). -/
def buildStep (acc : List Stage) (lc : J) : Except Err (List Stage) := do
  let st ← create_layer lc
  match st with
  | some s => pure (acc ++ [s])
  | none => pure acc

/-- _build_model_from_config: walks config[layers] in order, skipping layer
specs for which create_layer returns no stage.  Non-list layers values end
in a TypeError (iterating a string or dict subscripts its elements with a
string key, which also raises a TypeError). -/
def build_model_from_config (cfg : J) : Except Err (List Stage) := do
  let layersJ ← getItem cfg "layers"
  match layersJ with
  | .arr ls => ls.foldlM buildStep []
  | _ => .error (.typeError "object is not iterable")

/-- Chunk recursion with explicit fuel (structural, so that concrete
witnesses evaluate inside the kernel); the fuel is always the list length at
the call site, which bounds the number of chunks. -/
def chunksOfAux (n : Nat) : Nat → List α → List (List α)
  | 0, _ => []
  | _, [] => []
  | fuel + 1, l@(_ :: _) => l.take n :: chunksOfAux n fuel (l.drop n)

/-- Split a list into consecutive chunks of n elements (row decomposition of
a row-major tensor). -/
def chunksOf (n : Nat) (l : List α) : List (List α) :=
  if n = 0 then [] else chunksOfAux n l.length l

/-- Dense tensor over element type a: shape plus row-major data. -/
structure GTensor (a : Type) where
  shape : List Nat
  data : List a
deriving Repr, DecidableEq

abbrev Tensor := GTensor ℚ

def GTensor.numel (t : GTensor a) : Nat := t.shape.prod

def dot (xs ys : List ℚ) : ℚ := ((xs.zip ys).map (fun p => p.1 * p.2)).sum

/-- A torch runtime failure during a forward pass.  Every forward-pass
failure in this embedding is a runtimeError, which keeps the error class
disjoint from the ValueError raised by shape validation. -/
def rerr (m : String) : Except Err Tensor := .error (.runtimeError m)

/-- The size of the last dimension (shape[-1]), if any. -/
def lastDim : List Nat → Option Nat
  | [] => none
  | [n] => some n
  | _ :: rest => lastDim rest

/-- nn.Linear forward, applied along the last dimension. -/
def applyDense (d : DenseData) (t : Tensor) : Except Err Tensor :=
  match lastDim t.shape with
  | none => rerr "linear on a 0-dim tensor"
  | some c =>
      if c ≠ d.inSize then rerr "mat1 and mat2 shapes cannot be multiplied"
      else
        let rows :=
          if c = 0 then List.replicate (t.shape.dropLast.prod) ([] : List ℚ)
          else chunksOf c t.data
        let outRows := rows.map (fun r => (d.weight.zip d.bias).map (fun wb => dot wb.1 r + wb.2))
        .ok ⟨t.shape.dropLast ++ [d.outSize], outRows.flatten⟩

/-- Strictly positive rational weight used by the softmax model. -/
def wpos (x : ℚ) : ℚ := if 0 ≤ x then 1 + x else 1 / (1 - x)

/-- One row of the softmax model: positive weights normalized to sum 1.
Models torch.softmax of the external tensor library; the verified claims use
only that the outputs are a normalized positive weighting (range [0, 1]),
never the exponential function itself. -/
def softmaxRow (r : List ℚ) : List ℚ :=
  let s := (r.map wpos).sum
  r.map (fun x => wpos x / s)

/-- Softmax over the last dimension (dim = -1 at every call site). -/
def softmaxLast (t : Tensor) : Tensor :=
  match lastDim t.shape with
  | none => t
  | some c =>
      if c = 0 then t
      else ⟨t.shape, ((chunksOf c t.data).map softmaxRow).flatten⟩

/-- Pointwise rational models of the remaining activations, each with the
range of its torch counterpart (sigmoid in (0,1), tanh in (-1,1), gelu as the
sigmoid-weighted approximation). -/
def actFun : Act → ℚ → ℚ
  | .relu => fun x => max 0 x
  | .sigmoid => fun x => wpos x / (1 + wpos x)
  | .tanh => fun x => x / (1 + |x|)
  | .gelu => fun x => x * (wpos x / (1 + wpos x))
  | .softmax => id

def applyAct (a : Act) (t : Tensor) : Tensor :=
  match a with
  | .softmax => softmaxLast t
  | a => ⟨t.shape, t.data.map (actFun a)⟩

/-- nn.Conv2d forward on a [batch, channels, height, width] input. -/
def convApply (cd : ConvData) (t : Tensor) : Except Err Tensor :=
  match t.shape with
  | [b, c, h, w] =>
      if c ≠ cd.inC then rerr "input channel count mismatch"
      else if cd.stride ≤ 0 then rerr "non-positive stride is not supported"
      else
        let phw : Int × Int :=
          match cd.pad with
          | .num n => (n, n)
          | .pair a b2 => (a, b2)
          | .valid => (0, 0)
          | .same => (((cd.kh : Int) - 1) / 2, ((cd.kw : Int) - 1) / 2)
        let oh : Int :=
          match cd.pad with
          | .same => h
          | _ => ((h : Int) + 2 * phw.1 - cd.kh) / cd.stride + 1
        let ow : Int :=
          match cd.pad with
          | .same => w
          | _ => ((w : Int) + 2 * phw.2 - cd.kw) / cd.stride + 1
        if oh ≤ 0 ∨ ow ≤ 0 then rerr "calculated output size is too small"
        else
          let wAt := fun (o ci ky kx : Nat) =>
            cd.weight.getD (((o * cd.inC + ci) * cd.kh + ky) * cd.kw + kx) 0
          let inAt := fun (bi ci : Nat) (y x : Int) =>
            if 0 ≤ y ∧ y < (h : Int) ∧ 0 ≤ x ∧ x < (w : Int) then
              t.data.getD (((bi * c + ci) * h + y.toNat) * w + x.toNat) 0
            else 0
          let val := fun (bi o oy ox : Nat) =>
            (if cd.useBias then cd.bias.getD o 0 else 0) +
            ((List.range cd.inC).map (fun ci =>
              ((List.range cd.kh).map (fun ky =>
                ((List.range cd.kw).map (fun kx =>
                  wAt o ci ky kx *
                    inAt bi ci ((oy : Int) * cd.stride - phw.1 + ky)
                      ((ox : Int) * cd.stride - phw.2 + kx))).sum)).sum)).sum
          .ok ⟨[b, cd.outC, oh.toNat, ow.toNat],
            (((List.range b).map (fun bi =>
              ((List.range cd.outC).map (fun o =>
                ((List.range oh.toNat).map (fun oy =>
                  (List.range ow.toNat).map (fun ox => val bi o oy ox))))))))
              |>.map (fun x => (x.map List.flatten).flatten) |>.flatten⟩
  | _ => rerr "expected 4-dim input to conv2d"

/-- The pool-size forms torch accepts at forward time: an int or a pair of
ints. -/
def maxpoolKernel : J → Option (Int × Int)
  | .int k => some (k, k)
  | .arr [.int a, .int b] => some (a, b)
  | _ => none

/-- nn.MaxPool2d forward.  The builder stores the pool size exactly as
configured and torch validates it only here; the same-padding string stored
for non-valid padding configs is likewise rejected only at forward time. -/
def maxpoolApply (ps : J) (stride : Int) (padIsZero : Bool) (t : Tensor) : Except Err Tensor :=
  if !padIsZero then .error (.typeError "max pool padding must be an int or a pair of ints")
  else
    match maxpoolKernel ps with
    | some kp => maxpoolCore kp.1 kp.2 stride t
    | none => .error (.typeError "max pool kernel size must be an int or a pair of ints")
where
  maxpoolCore (kh kw : Int) (st : Int) (t : Tensor) : Except Err Tensor :=
    match t.shape with
    | [b, c, h, w] =>
        if kh ≤ 0 ∨ kw ≤ 0 then rerr "kernel size should be greater than zero"
        else if st ≤ 0 then rerr "stride should be greater than zero"
        else
          let oh : Int := ((h : Int) - kh) / st + 1
          let ow : Int := ((w : Int) - kw) / st + 1
          if oh ≤ 0 ∨ ow ≤ 0 then rerr "calculated output size is too small"
          else
            let inAt := fun (bi ci : Nat) (y x : Int) =>
              t.data.getD (((bi * c + ci) * h + y.toNat) * w + x.toNat) 0
            let windowVals := fun (bi ci oy ox : Nat) =>
              ((List.range kh.toNat).map (fun ky =>
                (List.range kw.toNat).map (fun kx =>
                  inAt bi ci ((oy : Int) * st + ky) ((ox : Int) * st + kx)))).flatten
            let val := fun (bi ci oy ox : Nat) =>
              let ws := windowVals bi ci oy ox
              ws.foldl max (ws.headD 0)
            .ok ⟨[b, c, oh.toNat, ow.toNat],
              (((List.range b).map (fun bi =>
                ((List.range c).map (fun ci =>
                  ((List.range oh.toNat).map (fun oy =>
                    (List.range ow.toNat).map (fun ox => val bi ci oy ox))))))))
                |>.map (fun x => (x.map List.flatten).flatten) |>.flatten⟩
    | _ => rerr "expected 4-dim input to max pool"

/-- nn.Flatten forward (start_dim 1): collapses all non-batch dimensions. -/
def flattenApply (t : Tensor) : Except Err Tensor :=
  match t.shape with
  | [] => rerr "flatten start dim out of range"
  | b :: rest => .ok ⟨if rest.isEmpty then [b] else [b, rest.prod], t.data⟩

/-- nn.BatchNorm1d forward in inference mode on a [batch, features] input,
with the default running statistics (mean 0, variance 1): the normalization
reduces to the affine transform gamma * x + beta (the epsilon inside the
square root lives in the external tensor library and is dropped in this
rational model; no verified property inspects batchnorm outputs). -/
def bnApply (bd : BNData) (t : Tensor) : Except Err Tensor :=
  match t.shape with
  | [b, c] =>
      if c ≠ bd.size then rerr "running_mean size mismatch"
      else
        .ok ⟨[b, c],
          ((chunksOf c t.data).map (fun r =>
            (r.zip (bd.gamma.zip bd.beta)).map (fun p => p.2.1 * p.1 + p.2.2))).flatten⟩
  | _ => rerr "expected 2-dim input to batchnorm"

/-- Forward pass of one stage.  Dropout is the identity: the engine always
runs in inference mode for every verified property. -/
def applyStage (t : Tensor) (s : Stage) : Except Err Tensor :=
  match s with
  | .dense d a => do
      let o ← applyDense d t
      .ok (match a with | some act => applyAct act o | none => o)
  | .conv2d c => convApply c t
  | .maxpool2d ps st pz => maxpoolApply ps st pz t
  | .flatten => flattenApply t
  | .dropout _ => .ok t
  | .batchnorm b => bnApply b t

/-- nn.Sequential forward: apply the stages left to right. -/
def applyPipeline (p : List Stage) (t : Tensor) : Except Err Tensor :=
  p.foldlM applyStage t

/-- Engine object state: the config and model slots of InferenceEngine
(both None after __init__; the device field is a pure environment query and
is not part of the observable state). -/
structure Engine where
  config : Option J
  model : Option (List Stage)
deriving Repr, DecidableEq

/-- The freshly constructed engine. -/
def initEngine : Engine := ⟨none, none⟩

/-- Result of reading and json-parsing one config file (_load_config): the
parsed document, or the IO/parse error.  The filesystem is external, so the
outcome is an input of the model. -/
abbrev FileSrc := Except Err J

/-- The two decodings of one weights file: the native torch.load outcome (a
state dict, modeled as the positional list of flattened parameter tensors)
and the json.load outcome. -/
structure WeightsSrc where
  native : Except Err (List (List ℚ))
  jsonData : Except Err J

/-- The parameter tensors of one stage (flattened), in state-dict order. -/
def stageParams : Stage → List (List ℚ)
  | .dense d _ => [d.weight.flatten, d.bias]
  | .conv2d c => if c.useBias then [c.weight, c.bias] else [c.weight]
  | .batchnorm b => [b.gamma, b.beta]
  | _ => []

/-- Replace the parameters of one stage from flattened lists; fails unless
the arity and the lengths match exactly (strict load_state_dict). -/
def stageBind : Stage → List (List ℚ) → Option Stage
  | .dense d a, [w, bs] =>
      if w.length = d.outSize * d.inSize ∧ bs.length = d.outSize then
        let rows := if d.inSize = 0 then List.replicate d.outSize ([] : List ℚ)
                    else chunksOf d.inSize w
        some (.dense { d with weight := rows, bias := bs } a)
      else none
  | .conv2d c, ps =>
      if c.useBias then
        match ps with
        | [w, bs] =>
            if w.length = c.outC * c.inC * c.kh * c.kw ∧ bs.length = c.outC then
              some (.conv2d { c with weight := w, bias := bs })
            else none
        | _ => none
      else
        match ps with
        | [w] =>
            if w.length = c.outC * c.inC * c.kh * c.kw then
              some (.conv2d { c with weight := w })
            else none
        | _ => none
  | .batchnorm b, [g, bt] =>
      if g.length = b.size ∧ bt.length = b.size then
        some (.batchnorm { b with gamma := g, beta := bt })
      else none
  | .maxpool2d ps st pz, [] => some (.maxpool2d ps st pz)
  | .flatten, [] => some .flatten
  | .dropout r, [] => some (.dropout r)
  | _, _ => none

/-- Walk the pipeline, consuming the state dict positionally; every entry
must be consumed (strict matching). -/
def bindStages : List Stage → List (List ℚ) → Option (List Stage)
  | [], [] => some []
  | [], _ :: _ => none
  | s :: rest, sd =>
      let k := (stageParams s).length
      if sd.length < k then none
      else
        match stageBind s (sd.take k) with
        | none => none
        | some s2 => (bindStages rest (sd.drop k)).map (s2 :: ·)

/-- load_state_dict of the external tensor library: strict positional binding
of the state-dict parameters onto the pipeline stages, atomic on failure. -/
def load_state_dict (p : List Stage) (sd : List (List ℚ)) : Except Err (List Stage) :=
  match bindStages p sd with
  | some p2 => .ok p2
  | none => .error (.runtimeError "Error in loading state_dict")

/-- _load_weights_from_json: a documented placeholder in the source (its body
is pass), so it binds nothing and never fails. -/
def load_weights_from_json (p : List Stage) (w : J) : Except Err (List Stage) :=
  let _ := w
  .ok p

/-- _load_weights: try the native format first; the bare except in the source
catches any failure of torch.load or load_state_dict and falls back to the
JSON path, whose read/parse errors propagate. -/
def load_weights (p : List Stage) (ws : WeightsSrc) : Except Err (List Stage) :=
  match ws.native.bind (load_state_dict p) with
  | .ok p2 => .ok p2
  | .error _ =>
      match ws.jsonData with
      | .error e => .error e
      | .ok d => load_weights_from_json p d

/-- load_model.  The source assigns self.config, then self.model, then binds
weights in place, so a failure at any step leaves the assignments already
made; .to(device) and .eval() never fail and do not change the modeled
state.  The returned pair is the post-call engine state and the call
outcome. -/
def load_model (e : Engine) (configSrc : FileSrc) (ws : WeightsSrc) : Engine × Except Err Unit :=
  match configSrc with
  | .error err => (e, .error err)
  | .ok cfg =>
      let e1 : Engine := { e with config := some cfg }
      match build_model_from_config cfg with
      | .error err => (e1, .error err)
      | .ok stages =>
          let e2 : Engine := { e1 with model := some stages }
          match load_weights stages ws with
          | .error err => (e2, .error err)
          | .ok stages2 => ({ e2 with model := some stages2 }, .ok ())

/-- The comparison loop of _validate_input_shape, with the number of
remaining iterations made explicit (structural recursion). -/
def validateLoopAux (expected : J) (shape : List Nat) : Nat → Nat → Except Err Bool
  | _, 0 => .ok true
  | i, rem + 1 => do
      let ei ← pyIdx expected i
      if pyEqNat ei (shape.getD i 0) then validateLoopAux expected shape (i + 1) rem
      else .ok false

/-- The index-1-onward comparison loop of _validate_input_shape. -/
def validateLoop (expected : J) (shape : List Nat) (i : Nat) : Except Err Bool :=
  validateLoopAux expected shape i (shape.length - i)

/-- _validate_input_shape: rank must equal len(input_shape); indices 1 and up
must match; the batch index 0 is never compared. -/
def validate_input_shape (config : Option J) (shape : List Nat) : Except Err Bool := do
  let expected ← optSubscript config "input_shape"
  let el ← pyLen expected
  if shape.length ≠ el then .ok false
  else validateLoop expected shape 1

/-- predict: state check, then shape validation, then the forward pass. -/
def predict (e : Engine) (t : Tensor) : Except Err Tensor :=
  match e.model with
  | none => .error (.valueError "Model not loaded")
  | some p => do
      let valid ← validate_input_shape e.config t.shape
      if valid then applyPipeline p t
      else .error (.valueError "Invalid input shape")

/-- predict_batch: element-wise predict, order preserving, first failure
aborts. -/
def predict_batch (e : Engine) (ts : List Tensor) : Except Err (List Tensor) :=
  ts.foldlM (fun acc t => do
    let r ← predict e t
    pure (acc ++ [r])) []

/-- torch Tensor.squeeze(): drops every dimension of size one. -/
def GTensor.squeeze (t : GTensor a) : GTensor a :=
  ⟨t.shape.filter (fun n => n ≠ 1), t.data⟩

/-- torch Tensor.item(): succeeds exactly on one-element tensors. -/
def GTensor.item [Inhabited a] (t : GTensor a) : Except Err a :=
  if t.shape.prod = 1 then .ok (t.data.headD default)
  else .error (.runtimeError "only one element tensors can be converted to Python scalars")

/-- A Python object returned by Tensor.tolist()/item(): a number or an
arbitrarily nested list of numbers. -/
inductive PyObj where
  | int (n : Int)
  | rat (q : ℚ)
  | list (xs : List PyObj)
deriving Repr

mutual

def PyObj.decEq : (a b : PyObj) → Decidable (a = b)
  | .int a, .int b =>
      if h : a = b then .isTrue (by rw [h])
      else .isFalse (fun hh => by cases hh; exact h rfl)
  | .rat a, .rat b =>
      if h : a = b then .isTrue (by rw [h])
      else .isFalse (fun hh => by cases hh; exact h rfl)
  | .list xs, .list ys =>
      match PyObj.decEqList xs ys with
      | .isTrue h => .isTrue (by rw [h])
      | .isFalse h => .isFalse (fun hh => by cases hh; exact h rfl)
  | .int _, .rat _ | .int _, .list _ | .rat _, .int _ | .rat _, .list _
  | .list _, .int _ | .list _, .rat _ => .isFalse (fun hh => by cases hh)

def PyObj.decEqList : (xs ys : List PyObj) → Decidable (xs = ys)
  | [], [] => .isTrue rfl
  | [], _ :: _ => .isFalse (fun hh => by cases hh)
  | _ :: _, [] => .isFalse (fun hh => by cases hh)
  | x :: xs, y :: ys =>
      match PyObj.decEq x y with
      | .isFalse h => .isFalse (fun hh => by cases hh; exact h rfl)
      | .isTrue h1 =>
          match PyObj.decEqList xs ys with
          | .isTrue h2 => .isTrue (by rw [h1, h2])
          | .isFalse h => .isFalse (fun hh => by cases hh; exact h rfl)

end

instance : DecidableEq PyObj := PyObj.decEq

def PyObj.isList : PyObj → Bool
  | .list _ => true
  | _ => false

/-- torch Tensor.tolist() on fuel (structural recursion; the fuel is the
rank, consumed one dimension per step): a bare scalar for a 0-dim tensor,
otherwise nested lists following the shape. -/
def tolistAux [Inhabited a] (f : a → PyObj) : Nat → List Nat → List a → PyObj
  | _, [], d => f (d.headD default)
  | 0, _ :: _, _ => .list []
  | fuel + 1, n :: rest, d => .list (((chunksOf rest.prod d).take n).map (tolistAux f fuel rest))

def tolistQ (t : GTensor ℚ) : PyObj := tolistAux PyObj.rat t.shape.length t.shape t.data

def tolistI (t : GTensor Int) : PyObj := tolistAux PyObj.int t.shape.length t.shape t.data

/-- One row of torch.max(_, dim=-1): maximum value and first-occurrence
argmax. -/
def rowMax (r : List ℚ) : ℚ × Int :=
  r.enum.foldl (fun acc p => if p.2 > acc.1 then (p.2, (p.1 : Int)) else acc) (r.headD 0, 0)

/-- torch.max(t, dim=-1): per-row maxima and their indices.  The 0-dim and
empty-dimension cases error (both are unreachable from the verified
properties, which constrain the shape beforehand). -/
def maxLast (t : Tensor) : Except Err (Tensor × GTensor Int) :=
  match lastDim t.shape with
  | none => .error (.runtimeError "max on a 0-dim tensor")
  | some c =>
      if c = 0 then .error (.runtimeError "max on an empty dimension")
      else
        let rows := chunksOf c t.data
        .ok (⟨t.shape.dropLast, rows.map (fun r => (rowMax r).1)⟩,
             ⟨t.shape.dropLast, rows.map (fun r => (rowMax r).2)⟩)

/-- Ordering of (probability, index) pairs by descending probability. -/
def pairGe (a b : ℚ × Nat) : Prop := b.1 ≤ a.1

instance : DecidableRel pairGe := fun a b => inferInstanceAs (Decidable (b.1 ≤ a.1))

instance : IsTotal (ℚ × Nat) pairGe := ⟨fun a b => le_total b.1 a.1⟩

instance : IsTrans (ℚ × Nat) pairGe := ⟨fun _ _ _ h1 h2 => le_trans h2 h1⟩

/-- Top k of one row: the k largest values with their indices, sorted by
descending value (the contract of torch.topk). -/
def rowTopk (k : Nat) (r : List ℚ) : List (ℚ × Nat) :=
  (List.insertionSort pairGe (r.enum.map (fun p => (p.2, p.1)))).take k

/-- torch.topk over the last dimension: per-row top-k values (sorted
descending) and their indices; k beyond the dimension size errors. -/
def topkLast (t : Tensor) (k : Nat) : Except Err (Tensor × GTensor Int) :=
  match lastDim t.shape with
  | none => .error (.runtimeError "topk on a 0-dim tensor")
  | some c =>
      if k > c then .error (.runtimeError "selected index k out of range")
      else
        let rows := (chunksOf c t.data).map (rowTopk k)
        .ok (⟨t.shape.dropLast ++ [k], (rows.map (fun l => l.map (fun p => p.1))).flatten⟩,
             ⟨t.shape.dropLast ++ [k], (rows.map (fun l => l.map (fun p => (p.2 : Int)))).flatten⟩)

/-- predict_class: softmax, per-row max, then squeeze().item() on the class
index first and the confidence second (the evaluation order of the source
return tuple). -/
def predict_class (e : Engine) (t : Tensor) : Except Err (Int × ℚ) := do
  let out ← predict e t
  let probs := softmaxLast out
  let (conf, idx) ← maxLast probs
  let ci ← idx.squeeze.item
  let cv ← conf.squeeze.item
  pure (ci, cv)

/-- predict_class_name: the classes-key check subscripts self.config with
`in`, so an unloaded engine (config None) raises a TypeError here rather
than the predict state error. -/
def predict_class_name (e : Engine) (t : Tensor) : Except Err (J × ℚ) :=
  match e.config with
  | none => .error (.typeError "argument of type NoneType is not iterable")
  | some cfg =>
      if !(hasKey cfg "classes") then
        .error (.valueError "No class names defined in model config")
      else do
        let r ← predict_class e t
        match dictGet cfg "classes" .null with
        | .arr xs =>
            match (if 0 ≤ r.1 then xs.get? r.1.toNat else none) with
            | some v => .ok (v, r.2)
            | none => .error (.indexError "list index out of range")
        | _ => .error (.typeError "object is not subscriptable")

/-- predict_top_k: topk of the softmaxed prediction, then squeeze().tolist()
on indices and probabilities (indices first, as in the source tuple). -/
def predict_top_k (e : Engine) (t : Tensor) (k : Nat) : Except Err (PyObj × PyObj) := do
  let out ← predict e t
  let probs := softmaxLast out
  let (tp, ti) ← topkLast probs k
  pure (tolistI ti.squeeze, tolistQ tp.squeeze)

/-- Elements of dummy_shape under torch.randn: int-like and non-negative. -/
def randnDim : J → Except Err Nat
  | .int n =>
      if n < 0 then .error (.runtimeError "Trying to create tensor with negative dimension")
      else .ok n.toNat
  | .bool b => .ok (if b then 1 else 0)
  | _ => .error (.typeError "randn argument must be an int")

/-- warmup: builds a batch-1 dummy input from config[input_shape], runs the
iterations, then divides the elapsed wall time by the iteration count.  The
wall clock is external, so the measured total is the totalTime parameter;
the dummy data is zeros (torch.randn values are never inspected by a
verified property). -/
def warmup (e : Engine) (numIterations : Nat) (totalTime : ℚ) : Except Err ℚ :=
  match e.model with
  | none => .error (.valueError "Model not loaded")
  | some p => do
      let ishape ← optSubscript e.config "input_shape"
      let tailJ ← (match ishape with
        | .arr xs => Except.ok (xs.drop 1)
        | .str _ => Except.error (Err.typeError "can only concatenate list to list")
        | _ => Except.error (Err.typeError "object is not subscriptable"))
      let dims ← tailJ.mapM randnDim
      let dummyShape := 1 :: dims
      let dummy : Tensor := ⟨dummyShape, List.replicate dummyShape.prod 0⟩
      let _ ← (List.range numIterations).foldlM (fun _ _ => applyPipeline p dummy) dummy
      if numIterations = 0 then .error .zeroDivisionError
      else .ok (totalTime / numIterations)

/-- The four benchmark statistics. -/
structure BenchStats where
  avgTime : ℚ
  minTime : ℚ
  maxTime : ℚ
  stdTime : ℚ
deriving Repr, DecidableEq

/-- Sample standard deviation model over ℚ: the Bessel-corrected variance
(the square root lives in the external tensor library; no verified property
inspects this value). -/
def stdModel (ts : List ℚ) : ℚ :=
  if ts.length ≤ 1 then 0
  else
    let m := ts.sum / (ts.length : ℚ)
    (ts.map (fun x => (x - m) ^ 2)).sum / ((ts.length : ℚ) - 1)

/-- benchmark: 10 untimed warmup passes on the caller input, then numRuns
timed passes; per-run wall-clock durations are the external runTime input.
The aggregation computes the average first (the first entry of the source
dict literal), so a zero run count dies on the division by len(times). -/
def benchmark (e : Engine) (t : Tensor) (numRuns : Nat) (runTime : Nat → ℚ) :
    Except Err BenchStats :=
  match e.model with
  | none => .error (.valueError "Model not loaded")
  | some p => do
      let _ ← (List.range 10).foldlM (fun _ _ => applyPipeline p t) t
      let _ ← (List.range numRuns).foldlM (fun _ _ => applyPipeline p t) t
      let times := (List.range numRuns).map runTime
      if times.length = 0 then .error .zeroDivisionError
      else
        .ok { avgTime := times.sum / (times.length : ℚ)
              minTime := times.foldl min (times.headD 0)
              maxTime := times.foldl max (times.headD 0)
              stdTime := stdModel times }

/-- save_model: fails when no model is loaded, otherwise serializes the
current parameter state (torch.save and the filesystem are external, so the
result is the serialized state dict). -/
def save_model (e : Engine) : Except Err (List (List ℚ)) :=
  match e.model with
  | none => .error (.valueError "No model to save")
  | some p => .ok ((p.map stageParams).flatten)

/-- Heap address of a Python object.  get_model_info is about object identity
(dict.copy() shares nested objects), so configs are modeled here as
heap-allocated dicts whose entries point at heap-allocated values. -/
abbrev Addr := Nat

/-- A heap cell: one Python object, with nested mutable objects held by
address. -/
inductive HVal where
  | hint (n : Int)
  | hstr (s : String)
  | hlist (elems : List Addr)
  | hdict (entries : List (String × Addr))
deriving Repr, DecidableEq

/-- The Python object heap. -/
abbrev Heap := List (Addr × HVal)

def hget : Heap → Addr → Option HVal
  | [], _ => none
  | (b, v) :: t, a => if a = b then some v else hget t a

/-- In-place mutation of the object at an address. -/
def hset (h : Heap) (a : Addr) (v : HVal) : Heap :=
  h.map (fun p => if p.1 = a then (a, v) else p)

def hdom (h : Heap) : List Addr := h.map (fun p => p.1)

/-- Allocate a fresh object (one plus the largest used address). -/
def halloc (h : Heap) (v : HVal) : Heap × Addr :=
  let a := (hdom h).foldl max 0 + 1
  ((a, v) :: h, a)

/-- Addresses held directly inside one heap value. -/
def childAddrs : HVal → List Addr
  | .hlist es => es
  | .hdict kvs => kvs.map (fun p => p.2)
  | _ => []

/-- Closed heap: every address held inside a stored value is itself
allocated. -/
def heapWF (h : Heap) : Prop :=
  ∀ p ∈ h, ∀ a ∈ childAddrs p.2, a ∈ hdom h

/-- Pure deep reading of a heap value, for observational comparison. -/
inductive DVal where
  | dint (n : Int)
  | dstr (s : String)
  | dlist (xs : List DVal)
  | ddict (kvs : List (String × DVal))
  | dmissing
  | dcut
deriving Repr

mutual

def DVal.decEq : (a b : DVal) → Decidable (a = b)
  | .dint a, .dint b =>
      if h : a = b then .isTrue (by rw [h])
      else .isFalse (fun hh => by cases hh; exact h rfl)
  | .dstr a, .dstr b =>
      if h : a = b then .isTrue (by rw [h])
      else .isFalse (fun hh => by cases hh; exact h rfl)
  | .dlist xs, .dlist ys =>
      match DVal.decEqList xs ys with
      | .isTrue h => .isTrue (by rw [h])
      | .isFalse h => .isFalse (fun hh => by cases hh; exact h rfl)
  | .ddict xs, .ddict ys =>
      match DVal.decEqKV xs ys with
      | .isTrue h => .isTrue (by rw [h])
      | .isFalse h => .isFalse (fun hh => by cases hh; exact h rfl)
  | .dmissing, .dmissing => .isTrue rfl
  | .dcut, .dcut => .isTrue rfl
  | .dint _, .dstr _ | .dint _, .dlist _ | .dint _, .ddict _ | .dint _, .dmissing | .dint _, .dcut
  | .dstr _, .dint _ | .dstr _, .dlist _ | .dstr _, .ddict _ | .dstr _, .dmissing | .dstr _, .dcut
  | .dlist _, .dint _ | .dlist _, .dstr _ | .dlist _, .ddict _ | .dlist _, .dmissing | .dlist _, .dcut
  | .ddict _, .dint _ | .ddict _, .dstr _ | .ddict _, .dlist _ | .ddict _, .dmissing | .ddict _, .dcut
  | .dmissing, .dint _ | .dmissing, .dstr _ | .dmissing, .dlist _ | .dmissing, .ddict _ | .dmissing, .dcut
  | .dcut, .dint _ | .dcut, .dstr _ | .dcut, .dlist _ | .dcut, .ddict _ | .dcut, .dmissing =>
      .isFalse (fun hh => by cases hh)

def DVal.decEqList : (xs ys : List DVal) → Decidable (xs = ys)
  | [], [] => .isTrue rfl
  | [], _ :: _ => .isFalse (fun hh => by cases hh)
  | _ :: _, [] => .isFalse (fun hh => by cases hh)
  | x :: xs, y :: ys =>
      match DVal.decEq x y with
      | .isFalse h => .isFalse (fun hh => by cases hh; exact h rfl)
      | .isTrue h1 =>
          match DVal.decEqList xs ys with
          | .isTrue h2 => .isTrue (by rw [h1, h2])
          | .isFalse h => .isFalse (fun hh => by cases hh; exact h rfl)

def DVal.decEqKV : (xs ys : List (String × DVal)) → Decidable (xs = ys)
  | [], [] => .isTrue rfl
  | [], _ :: _ => .isFalse (fun hh => by cases hh)
  | _ :: _, [] => .isFalse (fun hh => by cases hh)
  | (k1, v1) :: xs, (k2, v2) :: ys =>
      if hk : k1 = k2 then
          match DVal.decEq v1 v2 with
          | .isFalse h => .isFalse (fun hh => by cases hh; exact h rfl)
          | .isTrue hv =>
              match DVal.decEqKV xs ys with
              | .isTrue h2 => .isTrue (by rw [hk, hv, h2])
              | .isFalse h => .isFalse (fun hh => by cases hh; exact h rfl)
      else .isFalse (fun hh => by cases hh; exact hk rfl)

end

instance : DecidableEq DVal := DVal.decEq

/-- The pure deep value reached from an address, to bounded depth: this is
what an observer sees when reading a config through any number of
subscripts. -/
def deepVal (h : Heap) : Nat → Addr → DVal
  | 0, _ => .dcut
  | fuel + 1, a =>
      match hget h a with
      | some (.hint n) => .dint n
      | some (.hstr s) => .dstr s
      | some (.hlist es) => .dlist (es.map (fun e => deepVal h fuel e))
      | some (.hdict kvs) => .ddict (kvs.map (fun p => (p.1, deepVal h fuel p.2)))
      | none => .dmissing

/-- get_model_info: `self.config.copy() if self.config else {}`.  The copy is
dict.copy(), which allocates a fresh dict holding the same value addresses
(a shallow copy); a missing or falsy (empty) config yields a fresh empty
dict.  Returns the heap after the allocation and the address handed to the
caller. -/
def getModelInfoAt (h : Heap) : Option HVal → Heap × Addr
  | some (.hdict entries) =>
      if entries.isEmpty then halloc h (.hdict [])
      else halloc h (.hdict entries)
  | _ => halloc h (.hdict [])

def get_model_info (h : Heap) (config : Option Addr) : Heap × Addr :=
  match config with
  | some a => getModelInfoAt h (hget h a)
  | none => halloc h (.hdict [])

/-! Shared monad-reduction lemmas and concrete fixtures. -/

theorem ebind_ok {ε a b : Type} (x : a) (f : a → Except ε b) :
    ((Except.ok x : Except ε a) >>= f) = f x := rfl

theorem ebind_err {ε a b : Type} (e : ε) (f : a → Except ε b) :
    ((Except.error e : Except ε a) >>= f) = .error e := rfl

theorem epure_eq {ε a : Type} (x : a) : (pure x : Except ε a) = .ok x := rfl

/-- A fold whose body always succeeds with the same result succeeds. -/
theorem foldlM_const_ok {b : Type} (out : Tensor) (r : Except Err Tensor) (h : r = .ok out) :
    ∀ (l : List b) (acc : Tensor), ∃ z, (l.foldlM (fun _ _ => r) acc) = .ok z := by
  subst h
  intro l
  induction l with
  | nil => exact fun acc => ⟨acc, rfl⟩
  | cons x l2 ih =>
      intro acc
      rw [List.foldlM_cons, ebind_ok]
      exact ih out

/-- Sample two-feature Dense layer spec (the shape of the fc layers in
create_sample_config, scaled down). -/
def fcSpec : J :=
  .obj [("type", .str "Dense"),
        ("params", .obj [("input_size", .int 2), ("output_size", .int 2)])]

/-- Sample model config: input_shape [1, 2], one Dense layer, two classes. -/
def sampleCfg : J :=
  .obj [("input_shape", .arr [.int 1, .int 2]),
        ("layers", .arr [fcSpec]),
        ("classes", .arr [.str "a", .str "b"])]

def samplePipe : List Stage := [.dense (denseInit 2 2) none]

/-- A loaded engine holding the sample config and its built pipeline. -/
def sampleEngine : Engine := ⟨some sampleCfg, some samplePipe⟩

def tIn : Tensor := ⟨[1, 2], [0, 0]⟩

def tBatch2 : Tensor := ⟨[2, 2], [0, 0, 0, 0]⟩

/-- A Dense spec with an empty params dict: the builder dies on the missing
input_size. -/
def badDenseSpec : J := .obj [("type", .str "Dense"), ("params", .obj [])]

def badCfg : J := .obj [("layers", .arr [badDenseSpec])]

/-- A weights file readable by neither decoder. -/
def deadWeights : WeightsSrc :=
  ⟨.error (.ioError "unreadable weights file"), .error (.ioError "unreadable weights file")⟩

/-- A weights file that the native decoder rejects but that parses as JSON. -/
def fallbackWeights : WeightsSrc :=
  ⟨.error (.ioError "not a torch archive"), .ok (.obj [("fc1", .arr [])])⟩

/-- C1 counterexample: loading a parseable config whose Dense layer lacks its
required params leaves the engine with the new config installed and no
pipeline — a partially-loaded state, not the untouched Unloaded state the
claim requires. -/
theorem c1_counterexample :
    load_model initEngine (.ok badCfg) deadWeights =
      ({ config := some badCfg, model := none }, .error (.keyError "input_size")) ∧
    ¬ ({ config := some badCfg, model := none } : Engine).config = none := by
  constructor
  · decide
  · decide

/-- C1 (amended): a failure while reading or parsing the config file leaves
the engine unchanged, but a build failure leaves the new config installed
with the previous pipeline, and a weight-loading failure leaves both the new
config and the freshly built default-initialized pipeline installed. -/
theorem c1_amended_load_failure_states (e : Engine) (ws : WeightsSrc) :
    (∀ err : Err, load_model e (.error err) ws = (e, .error err)) ∧
    (∀ (cfg : J) (err : Err), build_model_from_config cfg = .error err →
      load_model e (.ok cfg) ws = ({ e with config := some cfg }, .error err)) ∧
    (∀ (cfg : J) (stages : List Stage) (err : Err),
      build_model_from_config cfg = .ok stages →
      load_weights stages ws = .error err →
      load_model e (.ok cfg) ws =
        ({ config := some cfg, model := some stages }, .error err)) := by
  refine ⟨fun err => rfl, fun cfg err hb => ?_, fun cfg stages err hb hw => ?_⟩
  · simp only [load_model, hb]
  · simp only [load_model, hb, hw]

/-- C1 witness: the amended step-by-step failure states at concrete inputs. -/
theorem c1_witness :
    load_model initEngine (.error (.ioError "no such file")) deadWeights =
      (initEngine, .error (.ioError "no such file")) ∧
    load_model initEngine (.ok badCfg) deadWeights =
      ({ initEngine with config := some badCfg }, .error (.keyError "input_size")) ∧
    load_model initEngine (.ok sampleCfg) deadWeights =
      ({ config := some sampleCfg, model := some samplePipe },
        .error (.ioError "unreadable weights file")) :=
  ⟨(c1_amended_load_failure_states initEngine deadWeights).1 (.ioError "no such file"),
   (c1_amended_load_failure_states initEngine deadWeights).2.1 badCfg
     (.keyError "input_size") (by decide),
   (c1_amended_load_failure_states initEngine deadWeights).2.2 sampleCfg samplePipe
     (.ioError "unreadable weights file") (by decide) (by decide)⟩

/-- C3 counterexample: on an unloaded engine, predict_batch with the empty
input list succeeds (returning the empty result list), and
predict_class_name fails with a TypeError about the absent config, not the
"model not loaded" state error. -/
theorem c3_counterexample :
    predict_batch initEngine [] = .ok [] ∧
    predict_class_name initEngine tIn =
      .error (.typeError "argument of type NoneType is not iterable") ∧
    ¬ predict_class_name initEngine tIn = .error (.valueError "Model not loaded") := by
  refine ⟨rfl, rfl, ?_⟩
  decide

/-- C3 (amended): on the unloaded engine, predict, predict_class,
predict_top_k, warmup and benchmark fail with the "Model not loaded" state
error for every input; predict_batch fails the same way exactly on non-empty
input lists (the empty list yields an empty success); predict_class_name
fails, but with a TypeError from testing membership in the absent config;
save_model fails with "No model to save". -/
theorem c3_amended_unloaded_ops :
    (∀ t : Tensor, predict initEngine t = .error (.valueError "Model not loaded")) ∧
    (∀ t : Tensor, predict_class initEngine t = .error (.valueError "Model not loaded")) ∧
    (∀ (t : Tensor) (k : Nat),
      predict_top_k initEngine t k = .error (.valueError "Model not loaded")) ∧
    (∀ (n : Nat) (tt : ℚ), warmup initEngine n tt = .error (.valueError "Model not loaded")) ∧
    (∀ (t : Tensor) (n : Nat) (rt : Nat → ℚ),
      benchmark initEngine t n rt = .error (.valueError "Model not loaded")) ∧
    (∀ (t : Tensor) (ts : List Tensor),
      predict_batch initEngine (t :: ts) = .error (.valueError "Model not loaded")) ∧
    predict_batch initEngine [] = .ok [] ∧
    (∀ t : Tensor, predict_class_name initEngine t =
      .error (.typeError "argument of type NoneType is not iterable")) ∧
    save_model initEngine = .error (.valueError "No model to save") :=
  ⟨fun _ => rfl, fun _ => rfl, fun _ _ => rfl, fun _ _ => rfl, fun _ _ _ => rfl,
   fun _ _ => rfl, rfl, fun _ => rfl, rfl⟩

/-- C8: whenever the native weight decoding (torch.load plus strict binding)
fails and the JSON fallback path is taken with a parseable JSON document,
weight loading returns the pipeline unchanged — every stage parameter keeps
its prior value — and the fallback mapping step itself never fails on any
input. -/
theorem c8_fallback_noop (p : List Stage) (ws : WeightsSrc) (j : J) (err : Err)
    (hnative : ws.native.bind (load_state_dict p) = .error err)
    (hjson : ws.jsonData = .ok j) :
    load_weights p ws = .ok p ∧
    (∀ (p2 : List Stage) (w : J), load_weights_from_json p2 w = .ok p2) := by
  refine ⟨?_, fun p2 w => rfl⟩
  simp only [load_weights, hnative, hjson, load_weights_from_json]

/-- C8 witness: the sample pipeline with a weights file the native decoder
rejects but the JSON parser accepts. -/
theorem c8_witness :
    load_weights samplePipe fallbackWeights = .ok samplePipe ∧
    load_weights_from_json samplePipe (.obj [("fc1", .arr [])]) = .ok samplePipe :=
  ⟨(c8_fallback_noop samplePipe fallbackWeights (.obj [("fc1", .arr [])])
      (.ioError "not a torch archive") (by decide) rfl).1,
   (c8_fallback_noop samplePipe fallbackWeights (.obj [("fc1", .arr [])])
      (.ioError "not a torch archive") (by decide) rfl).2 samplePipe (.obj [("fc1", .arr [])])⟩

/-- C10: neither warmup nor benchmark validates its iteration count.  On any
loaded engine whose config has a usable input_shape, warmup(0) runs no
forward pass and dies dividing the elapsed time by zero; benchmark(input, 0)
runs its ten warmup passes and then dies dividing by the length of the empty
timing list, instead of returning the four statistics. -/
theorem c10_zero_iterations (e : Engine) (p : List Stage) (cfg : J) (es : List J)
    (dims : List Nat) (t out : Tensor) (tt : ℚ) (rt : Nat → ℚ)
    (hm : e.model = some p) (hc : e.config = some cfg)
    (hshape : getItem cfg "input_shape" = .ok (.arr es))
    (hdims : (es.drop 1).mapM randnDim = .ok dims)
    (happly : applyPipeline p t = .ok out) :
    warmup e 0 tt = .error .zeroDivisionError ∧
    benchmark e t 0 rt = .error .zeroDivisionError := by
  constructor
  · simp only [warmup, hm, hc, optSubscript, hshape, hdims, ebind_ok, ebind_err, epure_eq,
      List.range_zero, List.foldlM_nil, if_true]
  · simp only [benchmark, hm]
    obtain ⟨z1, hz1⟩ := foldlM_const_ok out _ happly (List.range 10) t
    rw [hz1, ebind_ok]
    simp only [List.range_zero, List.foldlM_nil, epure_eq, ebind_ok, List.map_nil,
      List.length_nil, if_true]

/-- C10 witness: the sample engine at iteration count zero. -/
theorem c10_witness :
    warmup sampleEngine 0 1 = .error .zeroDivisionError ∧
    benchmark sampleEngine tIn 0 (fun _ => 0) = .error .zeroDivisionError :=
  c10_zero_iterations sampleEngine samplePipe sampleCfg [.int 1, .int 2] [2] tIn
    ⟨[1, 2], [0, 0]⟩ 1 (fun _ => 0) rfl rfl (by decide) (by decide)
    (by with_unfolding_all decide)

/-! Builder lemmas: the recognized-type set and the no-stage behavior. -/

/-- The closed set of layer types the elif chain recognizes. -/
def recognizedTypes : List String :=
  ["Dense", "Conv2D", "MaxPool2D", "Flatten", "Dropout", "BatchNorm"]

/-- A type value the dispatch drops: any non-string, or a string outside the
recognized set. -/
def unrecognizedTypeVal (t : J) : Bool :=
  match t with
  | .str s => !(recognizedTypes.contains s)
  | _ => true

/-- A whole layer spec counted as unrecognized: its fetched type value is
one the dispatch drops. -/
def unrecognizedSpec (cfg : J) : Bool :=
  match getItem cfg "type" with
  | .ok t => unrecognizedTypeVal t
  | .error _ => false

/-- The stage a layer spec contributes to the pipeline, if any. -/
def stageOf (lc : J) : Option Stage :=
  match create_layer lc with
  | .ok (some s) => some s
  | _ => none

theorem dispatch_unrecognized_str (s : String) (params : J)
    (h : recognizedTypes.contains s = false) :
    create_layer_dispatch (.str s) params = .ok none := by
  simp only [recognizedTypes, List.contains_cons, List.contains_nil, Bool.or_false,
    Bool.or_eq_false_iff, beq_eq_false_iff_ne, ne_eq] at h
  obtain ⟨h1, h2, h3, h4, h5, h6⟩ := h
  simp only [create_layer_dispatch, if_neg h1, if_neg h2, if_neg h3, if_neg h4, if_neg h5,
    if_neg h6]

theorem dispatch_nonstr (t params : J) (h : ∀ s, ¬ t = J.str s) :
    create_layer_dispatch t params = .ok none := by
  cases t with
  | str s => exact absurd rfl (h s)
  | null => rfl
  | bool b => rfl
  | int n => rfl
  | float q => rfl
  | arr xs => rfl
  | obj kvs => rfl

theorem dispatch_unrecognized (t params : J) (h : unrecognizedTypeVal t = true) :
    create_layer_dispatch t params = .ok none := by
  cases t with
  | str s =>
      simp only [unrecognizedTypeVal, Bool.not_eq_eq_eq_not, Bool.not_true] at h
      exact dispatch_unrecognized_str s params h
  | null => rfl
  | bool b => rfl
  | int n => rfl
  | float q => rfl
  | arr xs => rfl
  | obj kvs => rfl

theorem dispatch_recognized_isSome (s : String) (params : J) (r : Option Stage)
    (hs : recognizedTypes.contains s = true)
    (h : create_layer_dispatch (.str s) params = .ok r) : r.isSome = true := by
  simp only [recognizedTypes, List.contains_cons, List.contains_nil, Bool.or_false,
    Bool.or_eq_true, beq_iff_eq] at hs
  have step : ∀ (b : Except Err Stage), b.map some = .ok r → r.isSome = true := by
    intro b hb
    cases b with
    | ok st => cases hb; rfl
    | error e => cases hb
  rcases hs with rfl | rfl | rfl | rfl | rfl | rfl
  · exact step _ h
  · exact step _ h
  · exact step _ h
  · cases h; rfl
  · exact step _ h
  · exact step _ h

/-- When create_layer succeeds, it produced no stage exactly when the spec's
type value is unrecognized. -/
theorem create_layer_none_iff (cfg : J) (r : Option Stage)
    (h : create_layer cfg = .ok r) : (r = none ↔ unrecognizedSpec cfg = true) := by
  unfold create_layer at h
  cases ht : getItem cfg "type" with
  | error e => rw [ht, ebind_err] at h; cases h
  | ok t =>
      rw [ht, ebind_ok] at h
      cases hp : getItem cfg "params" with
      | error e => rw [hp, ebind_err] at h; cases h
      | ok params =>
          rw [hp, ebind_ok] at h
          unfold unrecognizedSpec
          rw [ht]
          cases hu : unrecognizedTypeVal t with
          | true =>
              rw [dispatch_unrecognized t params hu] at h
              cases h
              exact iff_of_true rfl hu
          | false =>
              cases t with
              | str s =>
                  have hs : recognizedTypes.contains s = true := by
                    cases hcc : recognizedTypes.contains s with
                    | true => rfl
                    | false =>
                        exfalso
                        rw [unrecognizedTypeVal, hcc] at hu
                        exact Bool.noConfusion hu
                  have hsome := dispatch_recognized_isSome s params r hs h
                  refine iff_of_false ?_ ?_
                  · intro hr; rw [hr] at hsome; exact Bool.noConfusion hsome
                  · intro hfalse; exact Bool.noConfusion (hu.symm.trans hfalse)
              | null => exact Bool.noConfusion hu
              | bool b => exact Bool.noConfusion hu
              | int n => exact Bool.noConfusion hu
              | float q => exact Bool.noConfusion hu
              | arr xs => exact Bool.noConfusion hu
              | obj kvs => exact Bool.noConfusion hu

/-- The build fold appends exactly the stages of the specs, in order. -/
theorem build_fold (ls : List J) : ∀ (acc p : List Stage),
    ls.foldlM buildStep acc = .ok p →
    p = acc ++ ls.filterMap stageOf ∧ ∀ lc ∈ ls, ∃ r, create_layer lc = .ok r := by
  induction ls with
  | nil =>
      intro acc p h
      cases h
      exact ⟨by simp, by simp⟩
  | cons lc ls ih =>
      intro acc p h
      rw [List.foldlM_cons] at h
      cases hc : create_layer lc with
      | error e => rw [buildStep, hc, ebind_err] at h; cases h
      | ok st =>
          cases st with
          | none =>
              rw [buildStep, hc, ebind_ok] at h
              obtain ⟨hp, hall⟩ := ih acc p h
              refine ⟨?_, ?_⟩
              · rw [hp, List.filterMap_cons]
                have : stageOf lc = none := by simp [stageOf, hc]
                rw [this]
              · intro x hx
                rcases List.mem_cons.mp hx with rfl | hmem
                · exact ⟨none, hc⟩
                · exact hall x hmem
          | some s =>
              rw [buildStep, hc, ebind_ok] at h
              obtain ⟨hp, hall⟩ := ih (acc ++ [s]) p h
              refine ⟨?_, ?_⟩
              · rw [hp, List.filterMap_cons]
                have : stageOf lc = some s := by simp [stageOf, hc]
                rw [this, List.append_assoc]
                rfl
              · intro x hx
                rcases List.mem_cons.mp hx with rfl | hmem
                · exact ⟨some s, hc⟩
                · exact hall x hmem

/-- Length bookkeeping for filterMap against the none-counter. -/
theorem filterMap_length_countP {α β : Type} (g : α → Option β) (l : List α) :
    (l.filterMap g).length + l.countP (fun x => (g x).isNone) = l.length := by
  induction l with
  | nil => rfl
  | cons x l ih =>
      rw [List.filterMap_cons, List.countP_cons]
      cases hx : g x with
      | none => simp [hx]; omega
      | some b => simp [hx]; omega

/-- A config mixing recognized and unrecognized layer types. -/
def mixedCfg : J :=
  .obj [("layers", .arr
    [fcSpec,
     .obj [("type", .str "Attention"), ("params", .obj [("heads", .int 4)])],
     .obj [("type", .str "Flatten"), ("params", .obj [])]])]

/-- C4: when the build succeeds on a config whose layers entry is the list
ls, the pipeline is exactly the in-order filterMap of the per-spec stages
(declared order preserved), and its stage count is the spec count minus the
number of unrecognized layer types. -/
theorem c4_pipeline_stages (cfg : J) (ls : List J) (p : List Stage)
    (hlayers : getItem cfg "layers" = .ok (.arr ls))
    (hbuild : build_model_from_config cfg = .ok p) :
    p = ls.filterMap stageOf ∧
    p.length = ls.length - ls.countP unrecognizedSpec ∧
    (∀ lc ∈ ls, ∃ r, create_layer lc = .ok r) := by
  unfold build_model_from_config at hbuild
  rw [hlayers, ebind_ok] at hbuild
  obtain ⟨hp, hall⟩ := build_fold ls [] p hbuild
  rw [List.nil_append] at hp
  have hcnt : ls.countP (fun x => (stageOf x).isNone) = ls.countP unrecognizedSpec := by
    apply List.countP_congr
    intro lc hmem
    obtain ⟨r, hr⟩ := hall lc hmem
    have hiff := create_layer_none_iff lc r hr
    have hstage : stageOf lc = r := by
      simp only [stageOf, hr]
      cases r with
      | none => rfl
      | some s => rfl
    constructor
    · intro hnone
      rw [hstage, Option.isNone_iff_eq_none] at hnone
      exact hiff.mp hnone
    · intro hunrec
      rw [hstage, hiff.mpr hunrec]
      rfl
  have hlen := filterMap_length_countP stageOf ls
  refine ⟨hp, ?_, hall⟩
  rw [hp]
  omega

/-- C4 witness: a three-layer config with one unrecognized type builds a
two-stage pipeline in declared order. -/
theorem c4_witness :
    [Stage.dense (denseInit 2 2) none, Stage.flatten] =
      ([fcSpec,
        .obj [("type", .str "Attention"), ("params", .obj [("heads", .int 4)])],
        .obj [("type", .str "Flatten"), ("params", .obj [])]] : List J).filterMap stageOf ∧
    ([Stage.dense (denseInit 2 2) none, Stage.flatten] : List Stage).length =
      ([fcSpec,
        .obj [("type", .str "Attention"), ("params", .obj [("heads", .int 4)])],
        .obj [("type", .str "Flatten"), ("params", .obj [])]] : List J).length -
      ([fcSpec,
        .obj [("type", .str "Attention"), ("params", .obj [("heads", .int 4)])],
        .obj [("type", .str "Flatten"), ("params", .obj [])]] : List J).countP unrecognizedSpec ∧
    (∀ lc ∈ ([fcSpec,
        .obj [("type", .str "Attention"), ("params", .obj [("heads", .int 4)])],
        .obj [("type", .str "Flatten"), ("params", .obj [])]] : List J),
      ∃ r, create_layer lc = .ok r) :=
  c4_pipeline_stages mixedCfg _ _ rfl (by with_unfolding_all decide)

/-- C5 counterexample: a layer spec with an unrecognized type and no params
key makes the builder fail with a KeyError — the params lookup precedes the
type dispatch — refuting "never fails ... regardless of that layer's other
contents". -/
theorem c5_counterexample :
    create_layer (.obj [("type", .str "FutureLayer")]) = .error (.keyError "params") ∧
    ¬ create_layer (.obj [("type", .str "FutureLayer")]) = .ok none := by
  exact ⟨by decide, by decide⟩

/-- C5 (amended): create_layer can fail only when the type key is missing,
when the params key is missing (even for unrecognized types, since params is
fetched before the dispatch), or when the type is a recognized one (whose
branch validates its required parameters); once both keys are present, an
unrecognized type value never fails and yields no stage. -/
theorem c5_amended_builder_failures :
    (∀ (cfg : J) (e : Err), create_layer cfg = .error e →
      getItem cfg "type" = .error e ∨
      (∃ t, getItem cfg "type" = .ok t ∧ getItem cfg "params" = .error e) ∨
      (∃ s, getItem cfg "type" = .ok (.str s) ∧ recognizedTypes.contains s = true)) ∧
    (∀ (cfg t params : J),
      getItem cfg "type" = .ok t → getItem cfg "params" = .ok params →
      unrecognizedTypeVal t = true → create_layer cfg = .ok none) := by
  constructor
  · intro cfg e h
    unfold create_layer at h
    cases ht : getItem cfg "type" with
    | error e2 => rw [ht, ebind_err] at h; cases h; exact Or.inl rfl
    | ok t =>
        rw [ht, ebind_ok] at h
        cases hp : getItem cfg "params" with
        | error e2 =>
            rw [hp, ebind_err] at h
            cases h
            exact Or.inr (Or.inl ⟨t, rfl, rfl⟩)
        | ok params =>
            rw [hp, ebind_ok] at h
            cases hu : unrecognizedTypeVal t with
            | true => rw [dispatch_unrecognized t params hu] at h; cases h
            | false =>
                cases t with
                | str s =>
                    refine Or.inr (Or.inr ⟨s, rfl, ?_⟩)
                    cases hcc : recognizedTypes.contains s with
                    | true => rfl
                    | false =>
                        exfalso
                        rw [unrecognizedTypeVal, hcc] at hu
                        exact Bool.noConfusion hu
                | null => exact Bool.noConfusion hu
                | bool b => exact Bool.noConfusion hu
                | int n => exact Bool.noConfusion hu
                | float q => exact Bool.noConfusion hu
                | arr xs => exact Bool.noConfusion hu
                | obj kvs => exact Bool.noConfusion hu
  · intro cfg t params ht hp hu
    unfold create_layer
    rw [ht, ebind_ok, hp, ebind_ok]
    exact dispatch_unrecognized t params hu

/-- C5 witness: the amended failure characterization at a Dense spec lacking
its required input_size, and the no-failure guarantee at an unrecognized
spec carrying a params dict. -/
theorem c5_witness :
    (getItem badDenseSpec "type" = .error (.keyError "input_size") ∨
      (∃ t, getItem badDenseSpec "type" = .ok t ∧
        getItem badDenseSpec "params" = .error (.keyError "input_size")) ∨
      (∃ s, getItem badDenseSpec "type" = .ok (.str s) ∧
        recognizedTypes.contains s = true)) ∧
    create_layer (.obj [("type", .str "FutureLayer"), ("params", .obj [])]) = .ok none :=
  ⟨c5_amended_builder_failures.1 badDenseSpec (.keyError "input_size") (by decide),
   c5_amended_builder_failures.2 (.obj [("type", .str "FutureLayer"), ("params", .obj [])])
     (.str "FutureLayer") (.obj []) (by decide) (by decide) (by decide)⟩

/-! Forward-pass error classification: pipeline application never raises the
ValueError class used by shape validation, so a validation failure is
identifiable from the outside. -/

/-- Any error class except the ValueError used by validation/state checks. -/
def notValueError : Err → Prop
  | .valueError _ => False
  | _ => True

theorem applyDense_err (d : DenseData) (t : Tensor) (e : Err)
    (h : applyDense d t = .error e) : ∃ m, e = .runtimeError m := by
  unfold applyDense rerr at h
  repeat' (first | split at h | simp only [] at h)
  all_goals first
    | exact Except.noConfusion h
    | exact ⟨_, (Except.error.inj h).symm⟩

theorem convApply_err (c : ConvData) (t : Tensor) (e : Err)
    (h : convApply c t = .error e) : ∃ m, e = .runtimeError m := by
  unfold convApply rerr at h
  repeat' (first | split at h | simp only [] at h)
  all_goals first
    | exact Except.noConfusion h
    | exact ⟨_, (Except.error.inj h).symm⟩

theorem maxpoolApply_err (ps : J) (st : Int) (pz : Bool) (t : Tensor) (e : Err)
    (h : maxpoolApply ps st pz t = .error e) : notValueError e := by
  unfold maxpoolApply maxpoolApply.maxpoolCore rerr at h
  repeat' (first | split at h | simp only [] at h)
  all_goals first
    | exact Except.noConfusion h
    | (cases h; trivial)

theorem flattenApply_err (t : Tensor) (e : Err)
    (h : flattenApply t = .error e) : notValueError e := by
  unfold flattenApply rerr at h
  repeat' (first | split at h | simp only [] at h)
  all_goals first
    | exact Except.noConfusion h
    | (cases h; trivial)

theorem bnApply_err (b : BNData) (t : Tensor) (e : Err)
    (h : bnApply b t = .error e) : notValueError e := by
  unfold bnApply rerr at h
  repeat' (first | split at h | simp only [] at h)
  all_goals first
    | exact Except.noConfusion h
    | (cases h; trivial)

theorem applyStage_err (t : Tensor) (s : Stage) (e : Err)
    (h : applyStage t s = .error e) : notValueError e := by
  cases s with
  | dense d a =>
      simp only [applyStage] at h
      cases hd : applyDense d t with
      | ok o => rw [hd, ebind_ok] at h; exact Except.noConfusion h
      | error e2 =>
          rw [hd, ebind_err] at h
          cases h
          obtain ⟨m, rfl⟩ := applyDense_err d t _ hd
          trivial
  | conv2d c =>
      simp only [applyStage] at h
      obtain ⟨m, rfl⟩ := convApply_err c t e h
      trivial
  | maxpool2d ps st pz => exact maxpoolApply_err ps st pz t e h
  | flatten => exact flattenApply_err t e h
  | dropout r => exact Except.noConfusion h
  | batchnorm b => exact bnApply_err b t e h

theorem applyPipeline_err (p : List Stage) : ∀ (t : Tensor) (e : Err),
    applyPipeline p t = .error e → notValueError e := by
  induction p with
  | nil => intro t e h; exact Except.noConfusion h
  | cons s rest ih =>
      intro t e h
      unfold applyPipeline at h
      rw [List.foldlM_cons] at h
      cases hs : applyStage t s with
      | error e2 => rw [hs, ebind_err] at h; cases h; exact applyStage_err t s _ hs
      | ok t2 => rw [hs, ebind_ok] at h; exact ih t2 e h

/-! Shape-validation characterization. -/

/-- The comparison the validation loop performs from index i for rem more
indices. -/
def matchFrom (es : List J) (shape : List Nat) : Nat → Nat → Bool
  | _, 0 => true
  | i, rem + 1 => pyEqNat (es.getD i .null) (shape.getD i 0) && matchFrom es shape (i + 1) rem

/-- The Bool _validate_input_shape computes on a list-valued input_shape:
equal rank, then every index from 1 equal. -/
def shapeMatches (es : List J) (shape : List Nat) : Bool :=
  decide (shape.length = es.length) && matchFrom es shape 1 (shape.length - 1)

theorem get?_eq_some_getD {α : Type} (l : List α) (d : α) :
    ∀ i, i < l.length → l.get? i = some (l.getD i d) := by
  induction l with
  | nil => intro i hi; cases hi
  | cons x l ih =>
      intro i hi
      cases i with
      | zero => rfl
      | succ i => exact ih i (by simpa using hi)

theorem validateLoopAux_arr (es : List J) (shape : List Nat) :
    ∀ (rem i : Nat), i + rem ≤ es.length →
    validateLoopAux (.arr es) shape i rem = .ok (matchFrom es shape i rem) := by
  intro rem
  induction rem with
  | zero => intro i hi; rfl
  | succ rem ih =>
      intro i hi
      have hilt : i < es.length := by omega
      have hidx : pyIdx (.arr es) i = .ok (es.getD i .null) := by
        simp only [pyIdx]
        rw [get?_eq_some_getD es J.null i hilt]
      unfold validateLoopAux
      rw [hidx, ebind_ok]
      rw [matchFrom]
      cases hp : pyEqNat (es.getD i J.null) (shape.getD i 0) with
      | true =>
          rw [if_pos rfl, Bool.true_and]
          exact ih (i + 1) (by omega)
      | false =>
          rw [if_neg Bool.false_ne_true, Bool.false_and]

theorem validate_input_shape_arr (cfg : J) (es : List J) (shape : List Nat)
    (hcfg : getItem cfg "input_shape" = .ok (.arr es)) :
    validate_input_shape (some cfg) shape = .ok (shapeMatches es shape) := by
  unfold validate_input_shape
  rw [show optSubscript (some cfg) "input_shape" = getItem cfg "input_shape" from rfl,
    hcfg, ebind_ok]
  have hlenJ : pyLen (J.arr es) = .ok es.length := rfl
  rw [hlenJ, ebind_ok]
  by_cases hl : shape.length = es.length
  · rw [if_neg (not_not_intro hl)]
    unfold validateLoop shapeMatches
    rw [decide_eq_true hl, Bool.true_and]
    by_cases hz : shape.length = 0
    · rw [hz]
      rfl
    · exact validateLoopAux_arr es shape (shape.length - 1) 1 (by omega)
  · rw [if_pos hl]
    unfold shapeMatches
    rw [decide_eq_false hl, Bool.false_and]

theorem matchFrom_true_iff (es : List J) (shape : List Nat) :
    ∀ (rem i : Nat), (matchFrom es shape i rem = true ↔
      ∀ j, i ≤ j → j < i + rem → pyEqNat (es.getD j .null) (shape.getD j 0) = true) := by
  intro rem
  induction rem with
  | zero =>
      intro i
      rw [matchFrom]
      constructor
      · intro _ j h1 h2; omega
      · intro _; rfl
  | succ rem ih =>
      intro i
      rw [matchFrom, Bool.and_eq_true, ih (i + 1)]
      constructor
      · rintro ⟨hi, hrest⟩ j h1 h2
        rcases Nat.eq_or_lt_of_le h1 with rfl | hlt
        · exact hi
        · exact hrest j hlt (by omega)
      · intro hall
        exact ⟨hall i (le_refl i) (by omega), fun j h1 h2 => hall j (by omega) (by omega)⟩

theorem map_int_getD (ns : List Int) :
    ∀ j, j < ns.length → (ns.map J.int).getD j .null = J.int (ns.getD j 0) := by
  induction ns with
  | nil => intro j hj; cases hj
  | cons x ns ih =>
      intro j hj
      cases j with
      | zero => rfl
      | succ j => exact ih j (by simpa using hj)

/-- The acceptance condition of the claim: rank equality plus equality on
every non-batch index. -/
def shapeOK (ns : List Int) (shape : List Nat) : Prop :=
  shape.length = ns.length ∧
  ∀ j, 1 ≤ j → j < shape.length → ns.getD j 0 = (shape.getD j 0 : Int)

instance (ns : List Int) (shape : List Nat) : Decidable (shapeOK ns shape) := by
  unfold shapeOK
  exact inferInstance

theorem shapeMatches_int_iff (ns : List Int) (shape : List Nat) :
    shapeMatches (ns.map J.int) shape = true ↔ shapeOK ns shape := by
  unfold shapeMatches shapeOK
  rw [Bool.and_eq_true, decide_eq_true_eq, matchFrom_true_iff, List.length_map]
  constructor
  · rintro ⟨hlen, hall⟩
    refine ⟨hlen, fun j h1 h2 => ?_⟩
    have hj : j < ns.length := by omega
    have := hall j h1 (by omega)
    rw [map_int_getD ns j hj] at this
    simpa [pyEqNat] using this
  · rintro ⟨hlen, hall⟩
    refine ⟨hlen, fun j h1 h2 => ?_⟩
    have hj : j < ns.length := by omega
    rw [map_int_getD ns j hj]
    simp only [pyEqNat]
    exact decide_eq_true (hall j h1 (by omega))

/-- C2: on a loaded engine whose config input_shape is the int list ns,
validation accepts exactly the tensors of equal rank agreeing with ns on
every index from 1 (the batch index 0 is unconstrained); predict fails with
the shape ValueError precisely on the rejected shapes, and on every accepted
shape it proceeds to the forward pass. -/
theorem predict_loaded (cfg : J) (p : List Stage) (t : Tensor) :
    predict ⟨some cfg, some p⟩ t =
      (validate_input_shape (some cfg) t.shape >>= fun valid =>
        if valid then applyPipeline p t
        else Except.error (Err.valueError "Invalid input shape")) := rfl

theorem c2_shape_validation (p : List Stage) (cfg : J) (ns : List Int) (t : Tensor)
    (hcfg : getItem cfg "input_shape" = .ok (.arr (ns.map J.int))) :
    (validate_input_shape (some cfg) t.shape = .ok true ↔ shapeOK ns t.shape) ∧
    ((predict ⟨some cfg, some p⟩ t = .error (.valueError "Invalid input shape")) ↔
      ¬ shapeOK ns t.shape) ∧
    (shapeOK ns t.shape → predict ⟨some cfg, some p⟩ t = applyPipeline p t) := by
  have hval := validate_input_shape_arr cfg (ns.map J.int) t.shape hcfg
  have hiff := shapeMatches_int_iff ns t.shape
  have hpredict : predict ⟨some cfg, some p⟩ t =
      (if shapeMatches (ns.map J.int) t.shape then applyPipeline p t
       else .error (.valueError "Invalid input shape")) := by
    rw [predict_loaded, hval, ebind_ok]
  refine ⟨?_, ?_, ?_⟩
  · rw [hval]
    constructor
    · intro h
      exact hiff.mp (Except.ok.inj h)
    · intro h
      rw [hiff.mpr h]
  · rw [hpredict]
    cases hm : shapeMatches (ns.map J.int) t.shape with
    | false =>
        rw [if_neg Bool.false_ne_true]
        exact iff_of_true rfl (fun hok => Bool.false_ne_true (hm.symm.trans (hiff.mpr hok)))
    | true =>
        rw [if_pos rfl]
        refine iff_of_false ?_ ?_
        · intro hc
          exact applyPipeline_err p t _ hc
        · intro hns
          exact hns (hiff.mp hm)
  · intro hok
    rw [hpredict, if_pos (hiff.mpr hok)]

/-- C2 witness: the sample engine accepts [1, 2] and [2, 2] inputs and
rejects a rank-2 input with mismatched feature dimension. -/
theorem c2_witness :
    (validate_input_shape (some sampleCfg) tIn.shape = .ok true ↔ shapeOK [1, 2] tIn.shape) ∧
    ((predict ⟨some sampleCfg, some samplePipe⟩ tIn =
        .error (.valueError "Invalid input shape")) ↔ ¬ shapeOK [1, 2] tIn.shape) ∧
    (shapeOK [1, 2] tIn.shape →
      predict ⟨some sampleCfg, some samplePipe⟩ tIn = applyPipeline samplePipe tIn) :=
  c2_shape_validation samplePipe sampleCfg [1, 2] tIn (by decide)

/-! Softmax and top-k lemmas. -/

theorem wpos_pos (x : ℚ) : 0 < wpos x := by
  unfold wpos
  split
  · linarith
  · rename_i hx
    push_neg at hx
    have h1 : (0 : ℚ) < 1 - x := by linarith
    positivity

theorem softmaxRow_length (r : List ℚ) : (softmaxRow r).length = r.length := by
  simp [softmaxRow]

theorem softmaxRow_mem (r : List ℚ) (q : ℚ) (hq : q ∈ softmaxRow r) : 0 ≤ q ∧ q ≤ 1 := by
  unfold softmaxRow at hq
  obtain ⟨x, hx, rfl⟩ := List.mem_map.mp hq
  have hwx : wpos x ∈ r.map wpos := List.mem_map.mpr ⟨x, hx, rfl⟩
  have hnn : ∀ y ∈ r.map wpos, (0 : ℚ) ≤ y := by
    intro y hy
    obtain ⟨z, _, rfl⟩ := List.mem_map.mp hy
    exact le_of_lt (wpos_pos z)
  have hle : wpos x ≤ (r.map wpos).sum := List.single_le_sum hnn _ hwx
  have hpos : (0 : ℚ) < (r.map wpos).sum := lt_of_lt_of_le (wpos_pos x) hle
  constructor
  · exact div_nonneg (le_of_lt (wpos_pos x)) (le_of_lt hpos)
  · exact (div_le_one hpos).mpr hle

theorem chunksOfAux_self (n : Nat) (l : List α) (hn : n ≠ 0) (hl : l.length = n) :
    chunksOfAux n l.length l = [l] := by
  cases l with
  | nil => simp at hl; omega
  | cons x xs =>
      rw [List.length_cons]
      unfold chunksOfAux
      have hdrop : (x :: xs).drop n = [] := by
        rw [← hl]
        exact List.drop_length (x :: xs)
      have htake : (x :: xs).take n = x :: xs := by
        rw [← hl]
        exact List.take_length (x :: xs)
      rw [hdrop, htake]
      have : ∀ m, chunksOfAux n m ([] : List α) = [] := by
        intro m
        cases m with
        | zero => rfl
        | succ m => rfl
      rw [this]

theorem chunksOf_self (n : Nat) (l : List α) (hn : n ≠ 0) (hl : l.length = n) :
    chunksOf n l = [l] := by
  unfold chunksOf
  rw [if_neg hn]
  exact chunksOfAux_self n l hn hl

theorem chunksOfAux_one (fuel : Nat) : ∀ l : List α, l.length ≤ fuel →
    chunksOfAux 1 fuel l = l.map (fun x => [x]) := by
  induction fuel with
  | zero =>
      intro l hl
      have : l = [] := List.eq_nil_of_length_eq_zero (by omega)
      rw [this]
      rfl
  | succ fuel ih =>
      intro l hl
      cases l with
      | nil => rfl
      | cons x xs =>
          unfold chunksOfAux
          have h1 : (x :: xs).take 1 = [x] := rfl
          have h2 : (x :: xs).drop 1 = xs := rfl
          rw [h1, h2, ih xs (by simp at hl; omega)]
          rfl

theorem chunksOf_one (l : List α) : chunksOf 1 l = l.map (fun x => [x]) := by
  unfold chunksOf
  rw [if_neg (by omega)]
  exact chunksOfAux_one l.length l (le_refl _)

theorem rowTopk_length (k : Nat) (r : List ℚ) (hk : k ≤ r.length) :
    (rowTopk k r).length = k := by
  unfold rowTopk
  rw [List.length_take, List.length_insertionSort, List.length_map, List.enum_length]
  omega

theorem rowTopk_sorted (k : Nat) (r : List ℚ) : List.Pairwise pairGe (rowTopk k r) :=
  List.Pairwise.sublist (List.take_sublist k _) (List.sorted_insertionSort pairGe _)

theorem rowTopk_mem (k : Nat) (r : List ℚ) (p : ℚ × Nat) (hp : p ∈ rowTopk k r) :
    p.1 ∈ r := by
  unfold rowTopk at hp
  have h1 : p ∈ List.insertionSort pairGe (r.enum.map (fun q => (q.2, q.1))) :=
    (List.take_sublist k _).mem hp
  have h2 : p ∈ r.enum.map (fun q => (q.2, q.1)) :=
    (List.perm_insertionSort pairGe _).mem_iff.mp h1
  obtain ⟨⟨i, x⟩, hmem, rfl⟩ := List.mem_map.mp h2
  have : r[i]? = some x := List.mem_enum_iff_getElem?.mp hmem
  exact List.getElem?_mem this

/-! Tensor-level reductions for the prediction family. -/

theorem softmaxLast_one_row (C : Nat) (d : List ℚ) (hd : d.length = C) (hC : C ≠ 0) :
    softmaxLast ⟨[1, C], d⟩ = ⟨[1, C], softmaxRow d⟩ := by
  simp only [softmaxLast, lastDim]
  rw [if_neg hC, chunksOf_self C d hC hd]
  simp

theorem topkLast_one_row (C k : Nat) (d : List ℚ) (hd : d.length = C) (hC : C ≠ 0)
    (hk : k ≤ C) :
    topkLast ⟨[1, C], d⟩ k =
      .ok (⟨[1, k], (rowTopk k d).map (fun p => p.1)⟩,
           ⟨[1, k], (rowTopk k d).map (fun p => (p.2 : Int))⟩) := by
  simp only [topkLast, lastDim]
  rw [if_neg (show ¬ k > C by omega), chunksOf_self C d hC hd]
  simp

theorem maxLast_rows (B C : Nat) (d : List ℚ) (hC : C ≠ 0) :
    maxLast ⟨[B, C], d⟩ =
      .ok (⟨[B], (chunksOf C d).map (fun r => (rowMax r).1)⟩,
           ⟨[B], (chunksOf C d).map (fun r => (rowMax r).2)⟩) := by
  simp only [maxLast, lastDim]
  rw [if_neg hC]
  rfl

theorem squeeze_pair_batch1 (k : Nat) (d : List α) (hk : k ≠ 1) :
    (GTensor.mk [1, k] d).squeeze = ⟨[k], d⟩ := by
  unfold GTensor.squeeze
  simp [hk]

theorem tolist_rank1 [Inhabited a] (f : a → PyObj) (k : Nat) (d : List a)
    (hd : d.length = k) :
    tolistAux f 1 [k] d = .list (d.map f) := by
  unfold tolistAux
  rw [show List.prod ([] : List Nat) = 1 from rfl, chunksOf_one]
  rw [List.take_of_length_le (by simpa using le_of_eq hd)]
  rw [List.map_map]
  rfl

theorem softmaxLast_shape (t : Tensor) : (softmaxLast t).shape = t.shape := by
  unfold softmaxLast
  repeat' split
  all_goals rfl

theorem squeeze_single (B : Nat) (d : List α) (hB : B ≠ 1) :
    (GTensor.mk [B] d).squeeze = ⟨[B], d⟩ := by
  unfold GTensor.squeeze
  simp [hB]

theorem item_multi (B : Nat) (d : List Int) (hB : B ≠ 1) :
    (GTensor.mk [B] d).item =
      .error (.runtimeError "only one element tensors can be converted to Python scalars") := by
  unfold GTensor.item
  rw [if_neg (by simpa using hB)]

theorem topkLast_in_range (B C k : Nat) (d : List ℚ) (hk : ¬ k > C) :
    topkLast ⟨[B, C], d⟩ k =
      .ok (⟨[B, k], (((chunksOf C d).map (rowTopk k)).map (fun l => l.map (fun p => p.1))).flatten⟩,
           ⟨[B, k], (((chunksOf C d).map (rowTopk k)).map
              (fun l => l.map (fun p => (p.2 : Int)))).flatten⟩) := by
  simp only [topkLast, lastDim]
  rw [if_neg hk]
  simp

theorem topkLast_out_of_range (B C k : Nat) (d : List ℚ) (hk : k > C) :
    topkLast ⟨[B, C], d⟩ k = .error (.runtimeError "selected index k out of range") := by
  simp only [topkLast, lastDim]
  rw [if_pos hk]

theorem tolistI_rank1 (k : Nat) (d : List Int) (hd : d.length = k) :
    tolistI ⟨[k], d⟩ = .list (d.map PyObj.int) :=
  tolist_rank1 PyObj.int k d hd

theorem tolistQ_rank1 (k : Nat) (d : List ℚ) (hd : d.length = k) :
    tolistQ ⟨[k], d⟩ = .list (d.map PyObj.rat) :=
  tolist_rank1 PyObj.rat k d hd

/-- C6 (amended): on any engine and validated input whose prediction is a
batch-1 row of C scores, predict_top_k with 2 ≤ k ≤ C returns flat lists of
exactly k indices and k probabilities, every probability in [0, 1] and the
probability list sorted non-increasing; k beyond the output dimension
errors; but for k = 1 the squeeze().tolist() collapse returns bare scalars
(one index and one probability), not singleton lists. -/
theorem c6_amended_top_k (e : Engine) (t out : Tensor) (C k : Nat)
    (hpred : predict e t = .ok out)
    (hshape : out.shape = [1, C])
    (hdata : out.data.length = C)
    (hk2 : 2 ≤ k) (hkC : k ≤ C) :
    (∃ (idxs : List Int) (probs : List ℚ),
      predict_top_k e t k = .ok (.list (idxs.map PyObj.int), .list (probs.map PyObj.rat)) ∧
      idxs.length = k ∧ probs.length = k ∧
      (∀ q ∈ probs, 0 ≤ q ∧ q ≤ 1) ∧
      List.Pairwise (fun a b : ℚ => b ≤ a) probs) ∧
    (∀ k2, k2 > C → predict_top_k e t k2 =
      .error (.runtimeError "selected index k out of range")) := by
  rcases out with ⟨sh, da⟩
  simp only at hshape hdata
  subst hshape
  have hC : C ≠ 0 := by omega
  have hsm := softmaxLast_one_row C da hdata hC
  have hrowlen : (softmaxRow da).length = C := by rw [softmaxRow_length, hdata]
  constructor
  · have htopk := topkLast_one_row C k (softmaxRow da) hrowlen hC hkC
    refine ⟨(rowTopk k (softmaxRow da)).map (fun p => (p.2 : Int)),
            (rowTopk k (softmaxRow da)).map (fun p => p.1), ?_, ?_, ?_, ?_, ?_⟩
    · unfold predict_top_k
      rw [hpred, ebind_ok, hsm]
      simp only [htopk, ebind_ok]
      have hlen : (rowTopk k (softmaxRow da)).length = k :=
        rowTopk_length k (softmaxRow da) (by omega)
      have hsqI := squeeze_pair_batch1 k
        ((rowTopk k (softmaxRow da)).map (fun p => (p.2 : Int))) (by omega)
      have hsqQ := squeeze_pair_batch1 k
        ((rowTopk k (softmaxRow da)).map (fun p => p.1)) (by omega)
      simp only [hsqI, hsqQ]
      rw [tolistI_rank1 k _ (by rw [List.length_map, hlen]),
          tolistQ_rank1 k _ (by rw [List.length_map, hlen])]
      rfl
    · rw [List.length_map]; exact rowTopk_length k (softmaxRow da) (by omega)
    · rw [List.length_map]; exact rowTopk_length k (softmaxRow da) (by omega)
    · intro q hq
      obtain ⟨p, hpmem, rfl⟩ := List.mem_map.mp hq
      exact softmaxRow_mem da p.1 (rowTopk_mem k (softmaxRow da) p hpmem)
    · rw [List.pairwise_map]
      exact rowTopk_sorted k (softmaxRow da)
  · intro k2 hk2C
    unfold predict_top_k
    rw [hpred, ebind_ok, hsm]
    simp only [topkLast_out_of_range 1 C k2 (softmaxRow da) hk2C, ebind_err]

/-- C6 counterexample: with k = 1 the squeezed top-k tensors are 0-dim, so
predict_top_k returns a bare index and a bare probability instead of the two
one-element lists the claim requires. -/
theorem c6_counterexample :
    predict_top_k sampleEngine tIn 1 = .ok (PyObj.int 0, PyObj.rat (1 / 2)) ∧
    (PyObj.int 0).isList = false ∧ (PyObj.rat (1 / 2)).isList = false := by
  refine ⟨by with_unfolding_all decide, rfl, rfl⟩

/-- C6 witness: the amended statement at the sample engine with k = 2. -/
theorem c6_witness :
    (∃ (idxs : List Int) (probs : List ℚ),
      predict_top_k sampleEngine tIn 2 =
        .ok (.list (idxs.map PyObj.int), .list (probs.map PyObj.rat)) ∧
      idxs.length = 2 ∧ probs.length = 2 ∧
      (∀ q ∈ probs, 0 ≤ q ∧ q ≤ 1) ∧
      List.Pairwise (fun a b : ℚ => b ≤ a) probs) ∧
    (∀ k2, k2 > 2 → predict_top_k sampleEngine tIn k2 =
      .error (.runtimeError "selected index k out of range")) :=
  c6_amended_top_k sampleEngine tIn ⟨[1, 2], [0, 0]⟩ 2 2
    (by with_unfolding_all decide) rfl rfl (by omega) (by omega)

/-- C9 (amended): on a prediction with batch dimension B ≥ 2, predict_class
fails (the squeezed argmax tensor holds B > 1 elements, so .item() raises),
and predict_class_name therefore fails too; but predict_top_k does not fail
for larger batches — it succeeds, returning per-row nested lists. -/
theorem predict_class_name_some (cfg : J) (e : Engine) (t : Tensor)
    (hc : e.config = some cfg) :
    predict_class_name e t =
      (if !(hasKey cfg "classes") then
        Except.error (Err.valueError "No class names defined in model config")
       else (predict_class e t) >>= fun r =>
         match dictGet cfg "classes" J.null with
         | J.arr xs =>
             (match (if 0 ≤ r.1 then xs.get? r.1.toNat else none) with
              | some v => Except.ok (v, r.2)
              | none => Except.error (Err.indexError "list index out of range"))
         | _ => Except.error (Err.typeError "object is not subscriptable")) := by
  unfold predict_class_name
  rw [hc]

theorem c9_amended_batch_one (e : Engine) (t out : Tensor) (B C k : Nat)
    (hpred : predict e t = .ok out)
    (hshape : out.shape = [B, C])
    (hB : 2 ≤ B) (hC : 1 ≤ C) (hk : k ≤ C) :
    predict_class e t =
      .error (.runtimeError "only one element tensors can be converted to Python scalars") ∧
    (∃ err, predict_class_name e t = .error err) ∧
    (∃ r, predict_top_k e t k = .ok r) := by
  rcases out with ⟨sh, da⟩
  simp only at hshape
  subst hshape
  have hC0 : C ≠ 0 := by omega
  have hsm : softmaxLast ⟨[B, C], da⟩ = ⟨[B, C], (softmaxLast ⟨[B, C], da⟩).data⟩ := by
    have h1 : (softmaxLast ⟨[B, C], da⟩).shape = [B, C] := softmaxLast_shape _
    cases hx : softmaxLast ⟨[B, C], da⟩
    rw [hx] at h1
    simp only at h1
    rw [h1]
  have hsqI : ∀ d : List Int, (GTensor.mk [B] d).squeeze = ⟨[B], d⟩ :=
    fun d => squeeze_single B d (by omega)
  have hitemI : ∀ d : List Int, (GTensor.mk [B] d).item =
      .error (.runtimeError "only one element tensors can be converted to Python scalars") :=
    fun d => item_multi B d (by omega)
  have hclass : predict_class e t =
      .error (.runtimeError "only one element tensors can be converted to Python scalars") := by
    unfold predict_class
    rw [hpred, ebind_ok, hsm]
    simp only [maxLast_rows B C ((softmaxLast ⟨[B, C], da⟩).data) hC0, ebind_ok, hsqI,
      hitemI, ebind_err]
  refine ⟨hclass, ?_, ?_⟩
  · cases hcfg : e.config with
    | none =>
        refine ⟨.typeError "argument of type NoneType is not iterable", ?_⟩
        unfold predict_class_name
        rw [hcfg]
    | some cfg =>
        rw [predict_class_name_some cfg e t hcfg]
        cases hhk : hasKey cfg "classes" with
        | false => exact ⟨_, by rw [if_pos (by decide : (!false) = true)]⟩
        | true =>
            rw [if_neg (by decide : ¬ (!true) = true)]
            rw [hclass, ebind_err]
            exact ⟨_, rfl⟩
  · unfold predict_top_k
    rw [hpred, ebind_ok, hsm]
    simp only [topkLast_in_range B C k ((softmaxLast ⟨[B, C], da⟩).data) (by omega), ebind_ok]
    exact ⟨_, rfl⟩

/-- C9 counterexample: a batch-2 input that passes shape validation makes
predict succeed and predict_class fail, yet predict_top_k also succeeds —
returning nested per-row lists — refuting "predict_top_k succeeds only for
inputs whose batch dimension is 1". -/
theorem c9_counterexample :
    predict sampleEngine tBatch2 = .ok ⟨[2, 2], [0, 0, 0, 0]⟩ ∧
    predict_class sampleEngine tBatch2 =
      .error (.runtimeError "only one element tensors can be converted to Python scalars") ∧
    predict_top_k sampleEngine tBatch2 2 =
      .ok (.list [.list [.int 0, .int 1], .list [.int 0, .int 1]],
           .list [.list [.rat (1 / 2), .rat (1 / 2)], .list [.rat (1 / 2), .rat (1 / 2)]]) := by
  refine ⟨by with_unfolding_all decide, by with_unfolding_all decide,
    by with_unfolding_all decide⟩

/-- C9 witness: the amended statement at the sample engine on a batch-2
input. -/
theorem c9_witness :
    predict_class sampleEngine tBatch2 =
      .error (.runtimeError "only one element tensors can be converted to Python scalars") ∧
    (∃ err, predict_class_name sampleEngine tBatch2 = .error err) ∧
    (∃ r, predict_top_k sampleEngine tBatch2 2 = .ok r) :=
  c9_amended_batch_one sampleEngine tBatch2 ⟨[2, 2], [0, 0, 0, 0]⟩ 2 2 2
    (by with_unfolding_all decide) rfl (by omega) (by omega) (by omega)

/-! Heap lemmas for get_model_info. -/

theorem hget_cons (b : Addr) (w : HVal) (h : Heap) (a : Addr) :
    hget ((b, w) :: h) a = if a = b then some w else hget h a := rfl

theorem foldl_max_le (l : List Nat) : ∀ acc : Nat, acc ≤ l.foldl max acc := by
  induction l with
  | nil => intro acc; exact le_refl _
  | cons x xs ih => intro acc; exact le_trans (le_max_left acc x) (ih (max acc x))

theorem mem_le_foldl_max (l : List Nat) : ∀ (acc a : Nat), a ∈ l → a ≤ l.foldl max acc := by
  induction l with
  | nil => intro acc a ha; cases ha
  | cons x xs ih =>
      intro acc a ha
      rcases List.mem_cons.mp ha with rfl | hmem
      · exact le_trans (le_max_right acc a) (foldl_max_le xs _)
      · exact ih _ a hmem

theorem halloc_fresh (h : Heap) (v : HVal) : (halloc h v).2 ∉ hdom h := by
  intro hmem
  have := mem_le_foldl_max (hdom h) 0 _ hmem
  revert this
  unfold halloc
  simp only []
  omega

theorem hget_mem (h : Heap) : ∀ (a : Addr) (v : HVal), hget h a = some v → (a, v) ∈ h := by
  induction h with
  | nil => intro a v hv; cases hv
  | cons p h ih =>
      intro a v hv
      rcases p with ⟨b, w⟩
      rw [hget_cons] at hv
      by_cases hab : a = b
      · rw [if_pos hab] at hv
        cases hv
        rw [hab]
        exact List.mem_cons_self _ _
      · rw [if_neg hab] at hv
        exact List.mem_cons_of_mem _ (ih a v hv)

theorem hget_mem_dom (h : Heap) (a : Addr) (v : HVal) (hv : hget h a = some v) :
    a ∈ hdom h :=
  List.mem_map.mpr ⟨(a, v), hget_mem h a v hv, rfl⟩

theorem hset_cons_fresh (h : Heap) (c : Addr) (w v : HVal) (hc : c ∉ hdom h) :
    hset ((c, w) :: h) c v = (c, v) :: h := by
  unfold hset
  rw [List.map_cons, if_pos rfl]
  congr 1
  have hall : ∀ p ∈ h, (if p.1 = c then (c, v) else p) = p := by
    intro p hp
    rw [if_neg]
    intro hpc
    exact hc (hpc ▸ List.mem_map.mpr ⟨p, hp, rfl⟩)
  rw [List.map_congr_left hall]
  exact List.map_id _

theorem deepVal_cons_fresh (h : Heap) (c : Addr) (v : HVal) (hwf : heapWF h)
    (hc : c ∉ hdom h) :
    ∀ (fuel : Nat) (a : Addr), a ∈ hdom h →
      deepVal ((c, v) :: h) fuel a = deepVal h fuel a := by
  intro fuel
  induction fuel with
  | zero => intro a ha; rfl
  | succ fuel ih =>
      intro a ha
      have hac : ¬ a = c := fun hh => hc (hh ▸ ha)
      simp only [deepVal]
      rw [hget_cons, if_neg hac]
      cases hv : hget h a with
      | none => rfl
      | some w =>
          have hmem := hget_mem h a w hv
          cases w with
          | hint n => rfl
          | hstr s => rfl
          | hlist es =>
              simp only []
              congr 1
              apply List.map_congr_left
              intro e he
              exact ih e (hwf (a, .hlist es) hmem e he)
          | hdict kvs =>
              simp only []
              congr 1
              apply List.map_congr_left
              intro p hp
              have : p.2 ∈ childAddrs (.hdict kvs) := List.mem_map.mpr ⟨p, hp, rfl⟩
              rw [ih p.2 (hwf (a, .hdict kvs) hmem p.2 this)]

instance (h : Heap) : Decidable (heapWF h) := by
  unfold heapWF
  exact List.decidableBAll _ _

theorem get_model_info_eq (h : Heap) (a : Addr) (entries : List (String × Addr))
    (hcfg : hget h a = some (.hdict entries)) :
    get_model_info h (some a) = halloc h (.hdict entries) := by
  show getModelInfoAt h (hget h a) = halloc h (.hdict entries)
  rw [hcfg]
  simp only [getModelInfoAt]
  cases hE : entries.isEmpty with
  | true =>
      rw [if_pos rfl]
      cases entries with
      | nil => rfl
      | cons p rest => cases hE
  | false => rw [if_neg (by decide)]

/-- C7 (amended): get_model_info returns a fresh dict object holding the same
entry addresses as the config (a shallow copy), so replacing the returned
object's own contents — top-level mutation by the caller — never changes the
deep value of the engine's config; an unloaded engine yields a fresh empty
dict.  (The nested objects themselves are shared: see the counterexample.) -/
theorem c7_amended_shallow_copy (h : Heap) (a : Addr) (entries : List (String × Addr))
    (hwf : heapWF h) (hcfg : hget h a = some (.hdict entries)) :
    ((get_model_info h (some a)).2 ∉ hdom h) ∧
    hget (get_model_info h (some a)).1 (get_model_info h (some a)).2 =
      some (.hdict entries) ∧
    (∀ (v : HVal) (fuel : Nat),
      deepVal (hset (get_model_info h (some a)).1 (get_model_info h (some a)).2 v) fuel a =
        deepVal h fuel a) ∧
    (∀ h2 : Heap, hget (get_model_info h2 none).1 (get_model_info h2 none).2 =
      some (.hdict [])) := by
  have ha : a ∈ hdom h := hget_mem_dom h a _ hcfg
  rw [get_model_info_eq h a entries hcfg]
  have hfresh := halloc_fresh h (HVal.hdict entries)
  refine ⟨hfresh, ?_, ?_, ?_⟩
  · rw [show (halloc h (.hdict entries)).1 = ((halloc h (.hdict entries)).2, .hdict entries) :: h
        from rfl]
    rw [hget_cons, if_pos rfl]
  · intro v fuel
    rw [show (halloc h (.hdict entries)).1 = ((halloc h (.hdict entries)).2, .hdict entries) :: h
        from rfl]
    rw [hset_cons_fresh h _ _ v hfresh]
    exact deepVal_cons_fresh h _ v hwf hfresh fuel a ha
  · intro h2
    rw [show (get_model_info h2 none).1 = ((get_model_info h2 none).2, .hdict []) :: h2
        from rfl]
    rw [hget_cons, if_pos rfl]

/-- A small loaded-config heap: the config dict at address 1 holds the layers
list (address 2) and a version string (address 4); the list holds one layer
name (address 3). -/
def heap0 : Heap :=
  [(1, .hdict [("layers", 2), ("version", 4)]),
   (2, .hlist [3]),
   (3, .hstr "Dense"),
   (4, .hstr "v1")]

/-- The heap after the caller of get_model_info reads the layers entry of the
returned copy (obtaining the shared address 2) and appends a new element to
that list in place. -/
def heapAfterMutation : Heap :=
  hset (halloc (get_model_info heap0 (some 1)).1 (.hstr "evil")).1 2
    (.hlist [3, (halloc (get_model_info heap0 (some 1)).1 (.hstr "evil")).2])

/-- C7 counterexample: dict.copy() is shallow, so mutating the layers list
reached through the returned mapping changes the deep value of the engine's
own config — the claim's "including mutations of nested values such as the
layers list" fails. -/
theorem c7_counterexample :
    hget (get_model_info heap0 (some 1)).1 (get_model_info heap0 (some 1)).2 =
      some (.hdict [("layers", 2), ("version", 4)]) ∧
    ¬ deepVal heapAfterMutation 4 1 = deepVal heap0 4 1 := by
  exact ⟨by decide, by decide⟩

/-- C7 witness: the amended shallow-copy guarantees at the sample heap. -/
theorem c7_witness :
    ((get_model_info heap0 (some 1)).2 ∉ hdom heap0) ∧
    hget (get_model_info heap0 (some 1)).1 (get_model_info heap0 (some 1)).2 =
      some (.hdict [("layers", 2), ("version", 4)]) ∧
    (∀ (v : HVal) (fuel : Nat),
      deepVal (hset (get_model_info heap0 (some 1)).1 (get_model_info heap0 (some 1)).2 v)
          fuel 1 =
        deepVal heap0 fuel 1) ∧
    (∀ h2 : Heap, hget (get_model_info h2 none).1 (get_model_info h2 none).2 =
      some (.hdict [])) :=
  c7_amended_shallow_copy heap0 1 [("layers", 2), ("version", 4)]
    (by decide) (by decide)
